import Mathlib

/-!
Verification of gen64/go-crud: a shallow embedding of the repository's
record-introspection engine (Helper), validator and controller operations,
with theorems settling the spec claims.

The repository contains several variants of the same engine:
  * the "crud" variant (controller.go + the `package crud` Helper in mdl.go),
  * the "crudl" variant (modelcontroller.go + the `package crudl` Helper),
  * an older helper.go `parseTag`.
Each embedded definition carries a comment naming the Go source it mirrors.
Go strings in this code base are ASCII, so Go's byte-wise string operations
coincide with character-wise operations on Lean strings; Go `map` values are
modelled as association lists with upsert assignment (`mapSet`), and map
iteration order is modelled as insertion order (every place where a claim
depends on an order, the Go code sorts explicitly, so this choice is
observationally irrelevant).
-/

namespace GoCrud

/-! ### Go string primitives -/

/-- Mirrors Go `strings.SplitN(s, " ", -1)` on the character list:
splits on every single space, preserving empty pieces; "" yields [""]. -/
def splitSpaceL : List Char → List (List Char)
  | [] => [[]]
  | c :: rest =>
    match splitSpaceL rest with
    | [] => [[]]
    | t :: ts => if c = ' ' then [] :: t :: ts else (c :: t) :: ts

/-- Go `strings.SplitN(s, " ", -1)`. -/
def goSplitSpace (s : String) : List String :=
  (splitSpaceL s.data).map (fun l => ⟨l⟩)

/-- Go `strings.HasPrefix` (byte-wise; char-wise for ASCII). -/
def goStartsWith (s pre : String) : Bool :=
  pre.data.isPrefixOf s.data

/-- Go `strings.HasSuffix` (byte-wise; char-wise for ASCII). -/
def goEndsWith (s suf : String) : Bool :=
  suf.data.isSuffixOf s.data

/-- Drops the first `n` characters; used to model
`strings.Replace(t, p, "", 1)` when `p` is known to be a prefix of `t`
(the first occurrence of a prefix is at position 0). -/
def goDropLen (s : String) (n : Nat) : String :=
  ⟨s.data.drop n⟩

/-- All-digit check, `none` when empty or a non-digit occurs. -/
def digitsToNat? : List Char → Option Nat
  | [] => none
  | [c] => if c.isDigit then some (c.toNat - '0'.toNat) else none
  | c :: rest =>
    if c.isDigit then
      (digitsToNat? rest).map (fun n => (c.toNat - '0'.toNat) * 10 ^ rest.length + n)
    else none

/-- Mirrors Go `strconv.Atoi`: optional sign then one or more digits;
any other shape is an error (`none`).  Overflow clamping of Go's Atoi is not
modelled; all values in this code base are tiny. -/
def goAtoi (s : String) : Option Int :=
  match s.data with
  | '+' :: rest => (digitsToNat? rest).map (fun n => (n : Int))
  | '-' :: rest => (digitsToNat? rest).map (fun n => -(n : Int))
  | l => (digitsToNat? l).map (fun n => (n : Int))

/-- Go `fmt.Sprintf("%d", n)` for integers. -/
def goItoa (n : Int) : String := toString n

/-- Go byte-wise string comparison `a <= b` (char-wise for ASCII). -/
def charListLe : List Char → List Char → Bool
  | [], _ => true
  | _ :: _, [] => false
  | a :: as, b :: bs =>
    if a.val < b.val then true
    else if b.val < a.val then false
    else charListLe as bs

/-- Go string `<=` as used by `sort.Strings`. -/
def goStrLe (a b : String) : Bool := charListLe a.data b.data

/-- One insertion step of insertion sort with `goStrLe`. -/
def insertStr (x : String) : List String → List String
  | [] => [x]
  | y :: ys => if goStrLe x y then x :: y :: ys else y :: insertStr x ys

/-- Mirrors the *result* of Go `sort.Strings` (ascending byte-wise order);
on a multiset of strings every correct sort produces this same list. -/
def goSortStrings : List String → List String
  | [] => []
  | x :: xs => insertStr x (goSortStrings xs)

/-- Go regexp `^[a-zA-Z0-9]+$` used for `link:` values. -/
def goIsAlnum (s : String) : Bool :=
  ¬ s.data.isEmpty ∧ s.data.all (fun c => c.isAlpha ∨ c.isDigit)

/-! ### Go map model: association lists with upsert assignment -/

/-- Go `m[k] = v`: replaces the value of an existing key, otherwise appends;
keeps keys unique when they were. -/
def mapSet {α : Type} : List (String × α) → String → α → List (String × α)
  | [], k, v => [(k, v)]
  | (k', v') :: rest, k, v =>
    if k' = k then (k, v) :: rest else (k', v') :: mapSet rest k v

/-- Go map lookup, `none` when absent. -/
def mapLookup {α : Type} : List (String × α) → String → Option α
  | [], _ => none
  | (k', v') :: rest, k => if k' = k then some v' else mapLookup rest k

/-- Go map read `m[k]`, returning the type's zero value when absent. -/
def mapGetD {α : Type} (m : List (String × α)) (k : String) (d : α) : α :=
  (mapLookup m k).getD d

theorem mapLookup_set_self {α : Type} (m : List (String × α)) (k : String) (v : α) :
    mapLookup (mapSet m k v) k = some v := by
  induction m with
  | nil => simp [mapSet, mapLookup]
  | cons hd tl ih =>
    by_cases h : hd.1 = k
    · simp [mapSet, h, mapLookup]
    · simp [mapSet, h, mapLookup, ih]

theorem mapLookup_set_ne {α : Type} (m : List (String × α)) (k k' : String) (v : α)
    (h : k ≠ k') : mapLookup (mapSet m k v) k' = mapLookup m k' := by
  induction m with
  | nil => simp [mapSet, mapLookup, h]
  | cons hd tl ih =>
    by_cases hh : hd.1 = k
    · simp [mapSet, hh, mapLookup, h]
    · simp [mapSet, hh, mapLookup, ih]

theorem mapLookup_mem {α : Type} {m : List (String × α)} {k : String} {v : α}
    (h : mapLookup m k = some v) : (k, v) ∈ m := by
  induction m with
  | nil => simp [mapLookup] at h
  | cons hd tl ih =>
    by_cases hh : hd.1 = k
    · simp [mapLookup, hh] at h
      have : hd = (k, v) := by
        cases hd
        simp_all
      rw [this]
      exact List.mem_cons_self _ _
    · simp [mapLookup, hh] at h
      right
      exact ih h

/-! ### Data model: reflected record types and instances

A record type is a name plus a list of field descriptors (name, Go kind and
struct-tag map); a record instance additionally carries a runtime value per
field.  `reflect.Value.Kind()` of a field is recovered from the value's
constructor, `reflect.Type.Kind()` from the descriptor. -/

/-- Static Go kind of a struct field (the kinds this code base uses:
`int64`, `int`, `string`, and pointers for link fields). -/
inductive FieldKind
  | kInt64
  | kInt
  | kStr
  | kPtr
deriving DecidableEq

/-- Runtime value of a struct field.  A pointer field holds `none` (nil) or
`some id`, the identity of the linked object — the only part of the linked
object this code base reads. -/
inductive GoValue
  | int (n : Int)
  | int64 (n : Int)
  | str (s : String)
  | ptr (linkId : Option Int)
deriving DecidableEq

/-- Go `reflect.Type.Name()` of a field value's type (pointer types have an
empty name in Go). -/
def goTypeName : GoValue → String
  | .int _ => "int"
  | .int64 _ => "int64"
  | .str _ => "string"
  | .ptr _ => ""

/-- Go `reflect.Value.Int()` (0 stands for the panic on non-integer kinds,
which no claim exercises). -/
def goValueInt : GoValue → Int
  | .int n => n
  | .int64 n => n
  | _ => 0

/-- A reflected struct field: name, static kind, and the struct-tag map
(`crud`, `crudl`, `crud_regexp`, ... keys). -/
structure FieldInfo where
  name : String
  kind : FieldKind
  tags : List (String × String)
deriving DecidableEq

/-- Go `reflect.StructTag.Get`, "" when absent. -/
def FieldInfo.tagGet (f : FieldInfo) (key : String) : String :=
  mapGetD f.tags key ""

/-- A reflected struct type. -/
structure StructType where
  name : String
  fields : List FieldInfo
deriving DecidableEq

/-- A record instance: the struct type's name and, per field, its descriptor
paired with its current value. -/
structure GoObj where
  typeName : String
  fields : List (FieldInfo × GoValue)
deriving DecidableEq

/-- The `reflect.TypeOf` of an instance. -/
def goTypeOf (obj : GoObj) : StructType :=
  ⟨obj.typeName, obj.fields.map Prod.fst⟩

/-- Mirrors the kind filter used all over the code base:
`Kind() != Int64 && Kind() != String && Kind() != Int → skip`. -/
def isScalarKind : FieldKind → Bool
  | .kInt64 => true
  | .kInt => true
  | .kStr => true
  | .kPtr => false

/-- `reflect.Value.Kind()` membership in {Int64, Int, String} for a value. -/
def isScalarValue : GoValue → Bool
  | .int _ => true
  | .int64 _ => true
  | .str _ => true
  | .ptr _ => false

/-- Go `val.FieldByName(k)`: the first field with the given name. -/
def objFieldByName? (obj : GoObj) (k : String) : Option GoValue :=
  (obj.fields.find? (fun fv => fv.1.name = k)).map Prod.snd

/-- `FieldByName` with the neutral default used where Go could only reach a
present field (a missing field would panic in Go; the `ptr none` default has
an empty type name so every validator skips it). -/
def objFieldByName (obj : GoObj) (k : String) : GoValue :=
  (objFieldByName? obj k).getD (GoValue.ptr none)

/-! ### Name derivation (mdl.go `getUnderscoredName` / `getPluralName`,
identical in helper.go and the crudl Helper) -/

/-- The per-character step of `getUnderscoredName` for positions `i > 0`:
an upper-case letter gets an underscore prepended and is lowercased, except
a 'D' directly after an 'I' (so "UserID" becomes "user_id"). -/
def underscoreChar (prev ch : Char) : List Char :=
  if ch.isUpper then
    if prev = 'I' ∧ ch = 'D' then [ch.toLower] else ['_', ch.toLower]
  else [ch]

/-- The loop of `getUnderscoredName` after the first character, tracking the
previous (original) character. -/
def underscoreAux (prev : Char) : List Char → List Char
  | [] => []
  | ch :: rest => underscoreChar prev ch ++ underscoreAux ch rest

/-- mdl.go `getUnderscoredName`: first character lowercased as-is, the rest
through `underscoreChar`. -/
def getUnderscoredName (s : String) : String :=
  match s.data with
  | [] => ""
  | ch :: rest => ⟨ch.toLower :: underscoreAux ch rest⟩

/-- mdl.go `getPluralName`: trailing "y" becomes "ies", a trailing "s" gets
"es" appended, otherwise "s" is appended. -/
def getPluralName (s : String) : String :=
  if goEndsWith s "y" then ⟨s.data.dropLast⟩ ++ "ies"
  else if goEndsWith s "s" then s ++ "es"
  else s ++ "s"

/-! ### The crud-variant Helper (`package crud`, mdl.go)

Field names ending in "Prefix" from the Go source are shortened to "...Pre"
here (`querySelectPrefix` → `querySelectPre`, `dbColPrefix` → `dbColPre`,
the `dbTablePrefix` argument → `dbTblPre`); everything else keeps its Go
name. -/

/-- crud HelperError (op and offending tag; the wrapped Go `error` is not
modelled). -/
structure HelperError where
  op : String
  tag : String
deriving DecidableEq

/-- The crud-variant `Helper` of mdl.go: cached SQL templates, name tables
and validation tables. -/
structure Helper where
  queryDropTable : String := ""
  queryCreateTable : String := ""
  queryInsert : String := ""
  queryUpdateById : String := ""
  querySelectById : String := ""
  queryDeleteById : String := ""
  querySelectPre : String := ""
  dbTbl : String := ""
  dbColPre : String := ""
  url : String := ""
  dbFieldCols : List (String × String) := []
  dbCols : List (String × String) := []
  fields : List String := []
  fieldsRequired : List (String × Bool) := []
  fieldsLength : List (String × (Int × Int)) := []
  fieldsEmail : List (String × Bool) := []
  fieldsValue : List (String × (Int × Int)) := []
  fieldsValueNotNil : List (String × (Bool × Bool)) := []
  fieldsRegExp : List (String × String) := []
  fieldsDefaultValue : List (String × String) := []
  fieldsUniq : List (String × Bool) := []
  fieldsTags : List (String × List (String × String)) := []
  fieldsFlags : List (String × Int) := []
  err : Option HelperError := none
deriving DecidableEq

/-- mdl.go `TypeInt64` / `TypeInt` / `TypeString` constants. -/
def TypeInt64 : Int := 64
def TypeInt : Int := 128
def TypeString : Int := 256

/-- mdl.go `setFieldFromName`: a field whose name ends in "Email" is put in
the email-format table regardless of its tag. -/
def setFieldFromName (h : Helper) (fieldName : String) : Helper :=
  if goEndsWith fieldName "Email" then
    {h with fieldsEmail := mapSet h.fieldsEmail fieldName true}
  else h

/-- mdl.go `setFieldFromTagOptWithoutVal`: the bare tokens. -/
def setFieldFromTagOptWithoutVal (h : Helper) (opt fieldName : String) : Helper :=
  let h := if opt = "req" then {h with fieldsRequired := mapSet h.fieldsRequired fieldName true} else h
  let h := if opt = "email" then {h with fieldsEmail := mapSet h.fieldsEmail fieldName true} else h
  if opt = "uniq" then {h with fieldsUniq := mapSet h.fieldsUniq fieldName true} else h

/-- The `switch valOpt` of mdl.go `setFieldFromTagOptWithVal`: fold a parsed
integer into the length/value tables; value 0 additionally records the
zero-is-a-real-bound escape in `fieldsValueNotNil`. -/
def applyNumericOpt (h : Helper) (fieldName valOpt : String) (i : Int) : Helper :=
  if valOpt = "lenmin" then
    {h with fieldsLength := mapSet h.fieldsLength fieldName (i, (mapGetD h.fieldsLength fieldName (0, 0)).2)}
  else if valOpt = "lenmax" then
    {h with fieldsLength := mapSet h.fieldsLength fieldName ((mapGetD h.fieldsLength fieldName (0, 0)).1, i)}
  else if valOpt = "valmin" then
    let h := {h with fieldsValue := mapSet h.fieldsValue fieldName (i, (mapGetD h.fieldsValue fieldName (0, 0)).2)}
    if i = 0 then
      {h with fieldsValueNotNil := mapSet h.fieldsValueNotNil fieldName (true, (mapGetD h.fieldsValueNotNil fieldName (false, false)).2)}
    else h
  else if valOpt = "valmax" then
    let h := {h with fieldsValue := mapSet h.fieldsValue fieldName ((mapGetD h.fieldsValue fieldName (0, 0)).1, i)}
    if i = 0 then
      {h with fieldsValueNotNil := mapSet h.fieldsValueNotNil fieldName ((mapGetD h.fieldsValueNotNil fieldName (false, false)).1, true)}
    else h
  else h

/-- The tag keys checked by mdl.go `setFieldFromTagOptWithVal`, in source
order. -/
def valOptKeys : List String := ["lenmin", "lenmax", "valmin", "valmax", "regexp"]

/-- The `for _, valOpt := range ...` loop of mdl.go
`setFieldFromTagOptWithVal`: tries each key as a `key:` token; a bad
integer aborts with a HelperError naming the key; the mutations made before
the error are kept (the Go receiver is a pointer). -/
def setFieldFromTagValLoop (fieldName opt : String) (h : Helper) :
    List String → Helper × Option HelperError
  | [] => (h, none)
  | k :: ks =>
    if goStartsWith opt (k ++ ":") then
      let val := goDropLen opt (k ++ ":").length
      if k = "regexp" then
        setFieldFromTagValLoop fieldName opt
          {h with fieldsRegExp := mapSet h.fieldsRegExp fieldName val} ks
      else
        match goAtoi val with
        | none => (h, some ⟨"ParseTag", k⟩)
        | some i => setFieldFromTagValLoop fieldName opt (applyNumericOpt h fieldName k i) ks
    else setFieldFromTagValLoop fieldName opt h ks

/-- mdl.go `setFieldFromTagOptWithVal` over all keys. -/
def setFieldFromTagOptWithVal (h : Helper) (opt fieldName : String) :
    Helper × Option HelperError :=
  setFieldFromTagValLoop fieldName opt h valOptKeys

/-- The token loop of mdl.go `setFieldFromTag`: one token runs the
without-value then the with-value handler; an error stops the loop. -/
def setFieldFromTagLoop (fieldName : String) (h : Helper) :
    List String → Helper × Option HelperError
  | [] => (h, none)
  | opt :: rest =>
    let h1 := setFieldFromTagOptWithoutVal h opt fieldName
    match setFieldFromTagOptWithVal h1 opt fieldName with
    | (h2, some e) => (h2, some e)
    | (h2, none) => setFieldFromTagLoop fieldName h2 rest

/-- mdl.go `setFieldFromTag`.  Note: the Go function keeps the error in a
local variable and never assigns `h.err`, so a malformed numeric token
silently stops this field's tag processing without failing construction. -/
def setFieldFromTag (h : Helper) (tag fieldName : String) : Helper :=
  (setFieldFromTagLoop fieldName h (goSplitSpace tag)).1

/-- Per-field body of mdl.go `reflectStructForValidation` (the
`defaultFieldsTags` override only applies under `initHelper` with a source
helper, which the claims never use, so it is elided). -/
def processValidationField (h : Helper) (f : FieldInfo) : Helper :=
  let h := setFieldFromName h f.name
  let h := {h with
    fieldsLength := mapSet h.fieldsLength f.name (0, 0),
    fieldsValue := mapSet h.fieldsValue f.name (0, 0),
    fieldsValueNotNil := mapSet h.fieldsValueNotNil f.name (false, false)}
  let crudTag := f.tagGet "crud"
  let crudRegexpTag := f.tagGet "crud_regexp"
  let crudValTag := f.tagGet "crud_val"
  let h := setFieldFromTag h crudTag f.name
  if h.err.isSome then h
  else
    let h := if crudRegexpTag ≠ "" then
        {h with fieldsRegExp := mapSet h.fieldsRegExp f.name crudRegexpTag} else h
    let h := if crudValTag ≠ "" then
        {h with fieldsDefaultValue := mapSet h.fieldsDefaultValue f.name crudValTag} else h
    {h with fieldsTags := mapSet h.fieldsTags f.name [("crud", crudTag), ("crud_regexp", crudRegexpTag), ("crud_val", crudValTag)]}

/-- The field loop of mdl.go `reflectStructForValidation`: non-scalar fields
are skipped; an error (were one ever set) returns early. -/
def reflectValidationLoop (h : Helper) : List FieldInfo → Helper
  | [] => h
  | f :: rest =>
    if isScalarKind f.kind then
      let h1 := processValidationField h f
      if h1.err.isSome then h1 else reflectValidationLoop h1 rest
    else reflectValidationLoop h rest

/-- mdl.go `reflectStructForValidation` (map initialisation is the `{}`
defaults of `Helper`). -/
def reflectStructForValidation (h : Helper) (st : StructType) : Helper :=
  reflectValidationLoop h st.fields

/-- mdl.go `getDBCol`. -/
def getDBCol (h : Helper) (n : String) : String :=
  if n = "ID" then h.dbColPre ++ "_id"
  else if n = "Flags" then h.dbColPre ++ "_flags"
  else getUnderscoredName n

/-- Go `field.Type.String()` for the kinds in use. -/
def kindTypeString : FieldKind → String
  | .kInt64 => "int64"
  | .kInt => "int"
  | .kStr => "string"
  | .kPtr => ""

/-- mdl.go `getDBColParams`. -/
def getDBColParams (n t : String) (uniq : Bool) : String :=
  let dbColParams :=
    if n = "ID" then "SERIAL PRIMARY KEY"
    else if n = "Flags" then "BIGINT DEFAULT 0"
    else if t = "string" then "VARCHAR(255) DEFAULT ''"
    else if t = "int64" then "BIGINT DEFAULT 0"
    else if t = "int" then "BIGINT DEFAULT 0"
    else "VARCHAR(255) DEFAULT ''"
  if uniq then dbColParams ++ " UNIQUE" else dbColParams

/-- mdl.go `addWithComma`. -/
def addWithComma (s v : String) : String :=
  if s ≠ "" then s ++ "," ++ v else s ++ v

/-- mdl.go `addWithAnd`. -/
def addWithAnd (s v : String) : String :=
  if s ≠ "" then s ++ " AND " ++ v else s ++ v

/-- Loop state of mdl.go `reflectStructForDBQueries`. -/
structure DBQState where
  h : Helper
  colsWithTypes : String := ""
  cols : String := ""
  valsWithoutID : String := ""
  colsWithoutID : String := ""
  colVals : String := ""
  valCnt : Int := 1

/-- Per-field body of the mdl.go `reflectStructForDBQueries` loop. -/
def processDBQField (st : DBQState) (f : FieldInfo) : DBQState :=
  if isScalarKind f.kind then
    let h := st.h
    let h := if f.kind = FieldKind.kInt64 then
        {h with fieldsFlags := mapSet h.fieldsFlags f.name (mapGetD h.fieldsFlags f.name 0 + TypeInt64)} else h
    let h := if f.kind = FieldKind.kInt then
        {h with fieldsFlags := mapSet h.fieldsFlags f.name (mapGetD h.fieldsFlags f.name 0 + TypeInt)} else h
    let h := if f.kind = FieldKind.kStr then
        {h with fieldsFlags := mapSet h.fieldsFlags f.name (mapGetD h.fieldsFlags f.name 0 + TypeString)} else h
    let dbCol := getDBCol h f.name
    let h := {h with
      dbFieldCols := mapSet h.dbFieldCols f.name dbCol,
      dbCols := mapSet h.dbCols dbCol f.name}
    let uniq := mapGetD h.fieldsUniq f.name false
    let dbColParams := getDBColParams f.name (kindTypeString f.kind) uniq
    let st := {st with h := h}
    let st := {st with colsWithTypes := addWithComma st.colsWithTypes (dbCol ++ " " ++ dbColParams)}
    let st := {st with cols := addWithComma st.cols dbCol}
    let st :=
      if f.name ≠ "ID" then
        {st with
          colsWithoutID := addWithComma st.colsWithoutID dbCol,
          valsWithoutID := addWithComma st.valsWithoutID ("$" ++ goItoa st.valCnt),
          colVals := addWithComma st.colVals (dbCol ++ "=$" ++ goItoa st.valCnt),
          valCnt := st.valCnt + 1}
      else st
    {st with h := {st.h with fields := st.h.fields ++ [f.name]}}
  else st

/-- mdl.go `reflectStructForDBQueries` (with the `forceName` argument fixed
to "" as in `Controller.getHelper`). -/
def reflectStructForDBQueries (h : Helper) (st : StructType) (dbTblPre : String) : Helper :=
  let usName := getUnderscoredName st.name
  let usPluName := getPluralName usName
  let h := {h with dbTbl := dbTblPre ++ usPluName, dbColPre := usName, url := usPluName}
  let idCol := h.dbColPre ++ "_id"
  let s := st.fields.foldl processDBQField ⟨h, "", "", "", "", "", 1⟩
  {s.h with
    queryDropTable := "DROP TABLE IF EXISTS " ++ s.h.dbTbl,
    queryCreateTable := "CREATE TABLE " ++ s.h.dbTbl ++ " (" ++ s.colsWithTypes ++ ")",
    queryDeleteById := "DELETE FROM " ++ s.h.dbTbl ++ " WHERE " ++ idCol ++ " = $1",
    querySelectById := "SELECT " ++ s.cols ++ " FROM " ++ s.h.dbTbl ++ " WHERE " ++ idCol ++ " = $1",
    queryInsert := "INSERT INTO " ++ s.h.dbTbl ++ "(" ++ s.colsWithoutID ++ ") VALUES (" ++ s.valsWithoutID ++ ") RETURNING " ++ idCol,
    queryUpdateById := "UPDATE " ++ s.h.dbTbl ++ " SET " ++ s.colVals ++ " WHERE " ++ idCol ++ " = $" ++ goItoa s.valCnt,
    querySelectPre := "SELECT " ++ s.cols ++ " FROM " ++ s.h.dbTbl}

/-- mdl.go `NewHelper(obj, dbTblPrefix, "", nil)` as used by
`Controller.getHelper`: reflect for validation, then for the SQL queries. -/
def NewHelper (obj : GoObj) (dbTblPre : String) : Helper :=
  let st := goTypeOf obj
  let h := reflectStructForValidation {} st
  reflectStructForDBQueries h st dbTblPre

/-! ### mdl.go `GetQuerySelect` -/

/-- The ORDER BY loop of mdl.go `GetQuerySelect`, consuming the `order` list
two entries at a time (an odd-length list makes the Go code panic on the
final index; here the dangling entry is ignored and no claim uses one). -/
def querySelectOrderLoop (h : Helper) (orderInc : List (String × Bool)) :
    List String → String → String
  | [], acc => acc
  | [_], acc => acc
  | k :: v :: rest, acc =>
    if orderInc.length > 0 ∧ ¬ mapGetD orderInc k false ∧ ¬ mapGetD orderInc (mapGetD h.dbCols k "") false then
      querySelectOrderLoop h orderInc rest acc
    else if mapGetD h.dbFieldCols k "" = "" ∧ mapGetD h.dbCols k "" = "" then
      querySelectOrderLoop h orderInc rest acc
    else
      let d := if v = "desc" then "DESC" else "ASC"
      if mapGetD h.dbFieldCols k "" ≠ "" then
        querySelectOrderLoop h orderInc rest (addWithComma acc (mapGetD h.dbFieldCols k "" ++ " " ++ d))
      else
        querySelectOrderLoop h orderInc rest (addWithComma acc (k ++ " " ++ d))

/-- The WHERE assembly of mdl.go `GetQuerySelect` after sorting: columns get
positional placeholders `$1, $2, ...` in sorted order. -/
def whereClauseLoop : List String → Int → String → String
  | [], _, acc => acc
  | c :: cs, i, acc => whereClauseLoop cs (i + 1) (addWithAnd acc (c ++ "=$" ++ goItoa i))

/-- A filter map: field name to filter value (Go `map[string]interface{}`,
modelled as an association list; both users of the map sort before using
it, so the list order never shows in any result). -/
def Filters := List (String × GoValue)

/-- The filter columns collected by mdl.go `GetQuerySelect`: known fields
only, restricted by `filterFieldsToInclude` when that is non-empty. -/
def collectFilterCols (h : Helper) (filters : List (String × GoValue))
    (filterInc : List (String × Bool)) : List String :=
  filters.filterMap (fun kv =>
    if mapGetD h.dbFieldCols kv.1 "" = "" then none
    else if filterInc.length > 0 ∧ ¬ mapGetD filterInc kv.1 false then none
    else some (mapGetD h.dbFieldCols kv.1 ""))

/-- mdl.go `GetQuerySelect`: SELECT template plus WHERE (filter columns
sorted by column name, `sort.Strings`), ORDER BY, LIMIT/OFFSET. -/
def GetQuerySelect (h : Helper) (order : List String) (limit offset : Int)
    (filters : List (String × GoValue)) (orderInc filterInc : List (String × Bool)) : String :=
  let s := h.querySelectPre
  let qOrder := querySelectOrderLoop h orderInc order ""
  let qLimitOffset :=
    if limit > 0 then
      if offset > 0 then "LIMIT " ++ goItoa limit ++ " OFFSET " ++ goItoa offset
      else "LIMIT " ++ goItoa limit
    else ""
  let qWhere := whereClauseLoop (goSortStrings (collectFilterCols h filters filterInc)) 1 ""
  let s := if qWhere ≠ "" then s ++ " WHERE " ++ qWhere else s
  let s := if qOrder ≠ "" then s ++ " ORDER BY " ++ qOrder else s
  if qLimitOffset ≠ "" then s ++ " " ++ qLimitOffset else s

/-! ### controller.go: Validate and the record accessors -/

/-- controller.go `ErrValidation` and the error payloads of
`ControllerError` (`ErrController` in source). -/
inductive GoErr
  | helperErr (e : HelperError)
  | errValidation (fields : List String)
  | other (msg : String)
deriving DecidableEq

/-- controller.go `ErrController`: operation name plus wrapped error. -/
structure ErrController where
  op : String
  err : GoErr
deriving DecidableEq

/-- controller.go `isKeyInMap`. -/
def isKeyInMap (k : String) (m : List (String × GoValue)) : Bool :=
  (m.map Prod.fst).contains k

/-- controller.go `validateFieldRequired`: an empty string fails; an
integer equal to zero fails unless `canBeZero`. -/
def validateFieldRequired (v : GoValue) (canBeZero : Bool) : Bool :=
  match v with
  | .str s => ¬ (s = "")
  | .int n => ¬ (n = 0 ∧ ¬ canBeZero)
  | .int64 n => ¬ (n = 0 ∧ ¬ canBeZero)
  | .ptr _ => true

/-- controller.go `validateFieldLength` (string byte length; char length for
ASCII). -/
def validateFieldLength (v : GoValue) (length : Int × Int) : Bool :=
  if goTypeName v ≠ "string" then true
  else
    let s := match v with | .str s => s | _ => ""
    if length.1 > -1 ∧ (s.length : Int) < length.1 then false
    else if length.2 > -1 ∧ (s.length : Int) > length.2 then false
    else true

/-- controller.go `validateFieldValue`: a bound participates when it is
non-zero, or zero with the matching `fieldsValueNotNil` escape set. -/
def validateFieldValue (v : GoValue) (value : Int × Int) (minIsZero maxIsZero : Bool) : Bool :=
  if goTypeName v ≠ "int" ∧ goTypeName v ≠ "int64" then true
  else if ((minIsZero ∧ value.1 = 0) ∨ value.1 ≠ 0) ∧ goValueInt v < value.1 then false
  else if ((maxIsZero ∧ value.2 = 0) ∨ value.2 ≠ 0) ∧ goValueInt v > value.2 then false
  else true

/-- controller.go `validateFieldEmail` with the RFC-5322-style regular
expression abstracted into the `emailM` matcher (regex engines are not
re-verified here). -/
def validateFieldEmail (v : GoValue) (emailM : String → Bool) : Bool :=
  if goTypeName v ≠ "string" then true
  else emailM (match v with | .str s => s | _ => "")

/-- controller.go `validateFieldRegExp`, with the compiled pattern
abstracted into the `reM` matcher. -/
def validateFieldRegExp (v : GoValue) (pattern : String) (reM : String → String → Bool) : Bool :=
  if goTypeName v ≠ "string" then true
  else reM pattern (match v with | .str s => s | _ => "")

/-- The required-fields pass of controller.go `Validate` (runs only when no
filter map is given); `canBeZero` comes from the `fieldsValueNotNil` pair. -/
def requiredPass (h : Helper) (obj : GoObj) : List String :=
  h.fieldsRequired.filterMap (fun kv =>
    let canBeZero := (mapGetD h.fieldsValueNotNil kv.1 (false, false)).1 || (mapGetD h.fieldsValueNotNil kv.1 (false, false)).2
    if validateFieldRequired (objFieldByName obj kv.1) canBeZero then none else some kv.1)

/-- In filter mode a field both gets a type-consistency check against the
struct and is validated on the filter value; in full-object mode the
struct's own value is validated.  This helper mirrors the shared shape of
the four constraint loops of controller.go `Validate`: the list of names the
entry appends (possibly the same name twice). -/
def filterAwareEntry (obj : GoObj) (filters : Option (List (String × GoValue)))
    (k : String) (check : GoValue → Bool) : List String :=
  match filters with
  | none => if check (objFieldByName obj k) then [] else [k]
  | some fl =>
    if ¬ isKeyInMap k fl then []
    else
      let mismatch := if goTypeName (mapGetD fl k (GoValue.ptr none)) ≠ goTypeName (objFieldByName obj k) then [k] else []
      let valueField := mapGetD fl k (GoValue.ptr none)
      mismatch ++ (if check valueField then [] else [k])

/-- The `fieldsLength` pass of controller.go `Validate`. -/
def lengthPass (h : Helper) (obj : GoObj) (filters : Option (List (String × GoValue))) : List String :=
  h.fieldsLength.flatMap (fun kv => filterAwareEntry obj filters kv.1 (fun v => validateFieldLength v kv.2))

/-- The `fieldsValue` pass of controller.go `Validate`. -/
def valuePass (h : Helper) (obj : GoObj) (filters : Option (List (String × GoValue))) : List String :=
  h.fieldsValue.flatMap (fun kv =>
    let notNil := mapGetD h.fieldsValueNotNil kv.1 (false, false)
    filterAwareEntry obj filters kv.1 (fun v => validateFieldValue v kv.2 notNil.1 notNil.2))

/-- The `fieldsEmail` pass of controller.go `Validate`. -/
def emailPass (h : Helper) (obj : GoObj) (filters : Option (List (String × GoValue)))
    (emailM : String → Bool) : List String :=
  h.fieldsEmail.flatMap (fun kv => filterAwareEntry obj filters kv.1 (fun v => validateFieldEmail v emailM))

/-- The `fieldsRegExp` pass of controller.go `Validate`. -/
def regexpPass (h : Helper) (obj : GoObj) (filters : Option (List (String × GoValue)))
    (reM : String → String → Bool) : List String :=
  h.fieldsRegExp.flatMap (fun kv => filterAwareEntry obj filters kv.1 (fun v => validateFieldRegExp v kv.2 reM))

/-- controller.go `Validate` for an already-constructed helper: the result
flag is true exactly when no check appended a field, and the failed-field
list is the concatenation of the five category passes (required first, and
only in full-object mode). -/
def validate (h : Helper) (obj : GoObj) (filters : Option (List (String × GoValue)))
    (emailM : String → Bool) (reM : String → String → Bool) : Bool × List String :=
  let failed :=
    (match filters with | none => requiredPass h obj | some _ => [])
    ++ lengthPass h obj filters ++ valuePass h obj filters
    ++ emailPass h obj filters emailM ++ regexpPass h obj filters reM
  (failed.isEmpty, failed)

/-- controller.go `GetModelIDValue` (reads the field named "ID"). -/
def GetModelIDValue (obj : GoObj) : Int :=
  goValueInt (objFieldByName obj "ID")

/-- Overwriting the first field named "ID" with a database-returned
identity (scanned through the `*int64` slot of `GetModelIDInterface`). -/
def setIDInList : List (FieldInfo × GoValue) → Int → List (FieldInfo × GoValue)
  | [], _ => []
  | fv :: rest, n =>
    if fv.1.name = "ID" then (fv.1, GoValue.int64 n) :: rest
    else fv :: setIDInList rest n

/-- The effect of scanning a database-returned identity through
`GetModelIDInterface`: the first field named "ID" is overwritten. -/
def setModelID (obj : GoObj) (n : Int) : GoObj :=
  ⟨obj.typeName, setIDInList obj.fields n⟩

/-- controller.go `GetModelFieldInterfaces` (crud variant): the values of
all fields after the first whose runtime kind is Int64, Int or String, in
declaration order. -/
def GetModelFieldInterfaces (obj : GoObj) : List GoValue :=
  (obj.fields.drop 1).filterMap (fun fv => if isScalarValue fv.2 then some fv.2 else none)

/-- controller.go `GetFiltersInterfaces`: filter values sorted by *field
name* (`sort.Strings` over the map keys). -/
def GetFiltersInterfaces (mf : List (String × GoValue)) : List GoValue :=
  if mf.length > 0 then
    (goSortStrings (mf.map Prod.fst)).map (fun k => mapGetD mf k (GoValue.ptr none))
  else []

/-- controller.go `ResetFields` (crud variant): pointers to nil, int64 and
int to 0, strings to "". -/
def resetValue : GoValue → GoValue
  | .ptr _ => .ptr none
  | .int64 _ => .int64 0
  | .int _ => .int 0
  | .str _ => .str ""

/-- controller.go `ResetFields` over a record instance. -/
def ResetFields (obj : GoObj) : GoObj :=
  ⟨obj.typeName, obj.fields.map (fun fv => (fv.1, resetValue fv.2))⟩

/-- Zero-value predicate on a field value (0 / "" / nil). -/
def isZeroValue : GoValue → Bool
  | .ptr p => p.isNone
  | .int64 n => n = 0
  | .int n => n = 0
  | .str s => s = ""

/-- "The instance's identity and all fields read as zero values". -/
def objZeroed (obj : GoObj) : Bool :=
  obj.fields.all (fun fv => isZeroValue fv.2)

/-! ### The database collaborator and the controller CRUD operations

The spec (§6) requires of the database handle only "execute a statement
with positional parameters" and "query rows into provided slots".  The
handle is modelled as a table of rows, each an identity plus the non-ID
scalar column values in declaration order (the order both the cached SQL
and `GetModelFieldInterfaces` use); inserts return the next identity from
an auto-increment counter, exactly the RETURNING-clause contract. -/

/-- The modelled database state behind the injected `*sql.DB`. -/
structure DB where
  rows : List (Int × List GoValue)
  nextId : Int
deriving DecidableEq

/-- `UPDATE ... SET cols WHERE id = $n`: rewrites the column values of every
row with the given identity. -/
def dbExecUpdate (db : DB) (id : Int) (vals : List GoValue) : DB :=
  ⟨db.rows.map (fun r => if r.1 = id then (r.1, vals) else r), db.nextId⟩

/-- `INSERT ... RETURNING id`: appends a row under a fresh identity and
returns that identity. -/
def dbExecInsert (db : DB) (vals : List GoValue) : DB × Int :=
  (⟨db.rows ++ [(db.nextId, vals)], db.nextId + 1⟩, db.nextId)

/-- `DELETE ... WHERE id = $1`. -/
def dbExecDelete (db : DB) (id : Int) : DB :=
  ⟨db.rows.filter (fun r => r.1 ≠ id), db.nextId⟩

/-- `QueryRow(SELECT ... WHERE id = $1)`. -/
def dbQueryById (db : DB) (id : Int) : Option (Int × List GoValue) :=
  db.rows.find? (fun r => r.1 = id)

/-- Result of a controller operation: the returned error, the record
instance and database afterwards, and the SQL statement strings handed to
the database handle (empty when no statement was executed). -/
structure OpResult where
  err : Option ErrController
  obj : GoObj
  db : DB
  executed : List String
deriving DecidableEq

/-- Scanning a result row back through `GetModelFieldInterfaces`: the
values land in the scalar slots after field 0 in declaration order;
`none` models the Scan error on a column-count mismatch. -/
def scanFields : List (FieldInfo × GoValue) → List GoValue → Option (List (FieldInfo × GoValue))
  | [], [] => some []
  | [], _ :: _ => none
  | (f, v) :: rest, vals =>
    if isScalarValue v then
      match vals with
      | [] => none
      | w :: ws => (scanFields rest ws).map (fun r => (f, w) :: r)
    else (scanFields rest vals).map (fun r => (f, v) :: r)

/-- controller.go `SaveToDB`: validate, then UPDATE when the identity is
non-zero, otherwise INSERT and scan the generated identity into the ID
field.  `getHelper` is modelled by rebuilding the (deterministic) helper
from the instance's type, as the cache would return it. -/
def SaveToDB (dbTblPre : String) (obj : GoObj) (db : DB)
    (emailM : String → Bool) (reM : String → String → Bool) : OpResult :=
  let h := NewHelper obj dbTblPre
  if hErr : h.err.isSome then
    ⟨some ⟨"GetHelper", GoErr.helperErr (h.err.get hErr)⟩, obj, db, []⟩
  else
    let v := validate h obj none emailM reM
    if ¬ v.1 then
      ⟨some ⟨"Validate", GoErr.errValidation v.2⟩, obj, db, []⟩
    else if GetModelIDValue obj ≠ 0 then
      ⟨none, obj, dbExecUpdate db (GetModelIDValue obj) (GetModelFieldInterfaces obj), [h.queryUpdateById]⟩
    else
      let r := dbExecInsert db (GetModelFieldInterfaces obj)
      ⟨none, setModelID obj r.2, r.1, [h.queryInsert]⟩

/-- controller.go `SetFromDB`: parse the id, select by id; a missing row
zeroes the instance and is not an error; a found row is scanned into the
identity and field slots. -/
def SetFromDB (dbTblPre : String) (obj : GoObj) (id : String) (db : DB) : OpResult :=
  match goAtoi id with
  | none => ⟨some ⟨"IDToInt", GoErr.other "strconv.Atoi failed"⟩, obj, db, []⟩
  | some idInt =>
    let h := NewHelper obj dbTblPre
    if hErr : h.err.isSome then
      ⟨some ⟨"GetHelper", GoErr.helperErr (h.err.get hErr)⟩, obj, db, []⟩
    else
      match dbQueryById db idInt with
      | none => ⟨none, ResetFields obj, db, [h.querySelectById]⟩
      | some row =>
        match scanFields (obj.fields.drop 1) row.2 with
        | none => ⟨some ⟨"DBQuery", GoErr.other "scan failed"⟩, obj, db, [h.querySelectById]⟩
        | some rest =>
          ⟨none, setModelID ⟨obj.typeName, obj.fields.take 1 ++ rest⟩ row.1, db, [h.querySelectById]⟩

/-- controller.go `DeleteFromDB`: a zero identity is a no-op; otherwise the
row is deleted and the instance's fields are zeroed. -/
def DeleteFromDB (dbTblPre : String) (obj : GoObj) (db : DB) : OpResult :=
  let h := NewHelper obj dbTblPre
  if hErr : h.err.isSome then
    ⟨some ⟨"GetHelper", GoErr.helperErr (h.err.get hErr)⟩, obj, db, []⟩
  else if GetModelIDValue obj = 0 then
    ⟨none, obj, db, []⟩
  else
    ⟨none, ResetFields obj, dbExecDelete db (GetModelIDValue obj), [h.queryDeleteById]⟩

/-! ### helper.go `parseTag` (the older crud Helper variant) -/

/-- The accumulator of helper.go `parseTag`: its `xb` / `xi` / `xs` maps
have fixed keys and are modelled as named fields (the `xi["link:"]`
assignment, to a key the function never returns, is modelled as the
otherwise-unused `linkNum` field). -/
structure ParseTagResult where
  req : Bool := false
  email : Bool := false
  lenmin : Int := -1
  lenmax : Int := -1
  valmin : Int := -1
  valmax : Int := -1
  re : String := ""
  linkNum : Int := 0
  err : Option HelperError := none
deriving DecidableEq

/-- Writing a parsed integer into the `xi` entry of helper.go `parseTag`. -/
def parseTagSetNum (acc : ParseTagResult) (sl : String) (i : Int) : ParseTagResult :=
  if sl = "lenmin" then {acc with lenmin := i}
  else if sl = "lenmax" then {acc with lenmax := i}
  else if sl = "valmin" then {acc with valmin := i}
  else if sl = "valmax" then {acc with valmax := i}
  else {acc with linkNum := i}

/-- The keys helper.go `parseTag` tries on each token, in source order.
The last entry is the literal `"link:"`, so the code actually tests for a
`link::` prefix and never validates ordinary `link:Target` tokens. -/
def parseTagKeys : List String := ["lenmin", "lenmax", "valmin", "valmax", "regexp", "link:"]

/-- The inner key loop of helper.go `parseTag` on one token: first matching
`sl:`-prefixed key wins; `regexp` keeps the remainder verbatim, any other
key parses an integer and a parse failure stops everything with a
HelperError naming the key. -/
def parseTagValKeys (acc : ParseTagResult) (t : String) : List String → ParseTagResult
  | [] => acc
  | sl :: rest =>
    if acc.err.isSome then acc
    else if goStartsWith t (sl ++ ":") then
      let lStr := goDropLen t (sl ++ ":").length
      if sl = "regexp" then parseTagValKeys {acc with re := lStr} t rest
      else
        match goAtoi lStr with
        | none => {acc with err := some ⟨"ParseTag", sl⟩}
        | some i => parseTagValKeys (parseTagSetNum acc sl i) t rest
    else parseTagValKeys acc t rest

/-- The token loop of helper.go `parseTag`: a recorded error breaks the
loop before the next token. -/
def parseTagLoop (acc : ParseTagResult) : List String → ParseTagResult
  | [] => acc
  | t :: rest =>
    if acc.err.isSome then acc
    else
      let acc := if t = "req" then {acc with req := true} else acc
      let acc := if t = "email" then {acc with email := true} else acc
      parseTagLoop (parseTagValKeys acc t parseTagKeys) rest

/-- helper.go `parseTag`. -/
def parseTag (s : String) : ParseTagResult :=
  parseTagLoop {} (goSplitSpace s)

/-! ### The crudl variant (`package crudl`: modelcontroller.go and its
Helper) -/

/-- Result record of the crudl `parseCrudlTagLine` (its nine return
values; the error is a plain Go error, modelled as a message). -/
structure CrudlTagResult where
  req : Bool := false
  lenmin : Int := -1
  lenmax : Int := -1
  link : String := ""
  email : Bool := false
  valmin : Int := -1
  valmax : Int := -1
  re : String := ""
  err : Option String := none
deriving DecidableEq

/-- The all-zero tuple the crudl `parseCrudlTagLine` returns together with
an error (note the bounds come back 0, not the -1 sentinels). -/
def crudlTagError (msg : String) : CrudlTagResult :=
  ⟨false, 0, 0, "", false, 0, 0, "", some msg⟩

/-- The numeric/regexp keys of `parseCrudlTagLine`.  The integer-validity
check that once guarded them is commented out in the source, so
`lenmin, _ = strconv.Atoi(lStr)` silently turns an unparsable value into
0. -/
def crudlValKeys (acc : CrudlTagResult) (t : String) : List String → CrudlTagResult
  | [] => acc
  | sl :: rest =>
    if goStartsWith t (sl ++ ":") then
      let lStr := goDropLen t (sl ++ ":").length
      let acc :=
        if sl = "lenmin" then {acc with lenmin := (goAtoi lStr).getD 0}
        else if sl = "lenmax" then {acc with lenmax := (goAtoi lStr).getD 0}
        else if sl = "valmin" then {acc with valmin := (goAtoi lStr).getD 0}
        else if sl = "valmax" then {acc with valmax := (goAtoi lStr).getD 0}
        else {acc with re := lStr}
      crudlValKeys acc t rest
    else crudlValKeys acc t rest

/-- The token loop of `parseCrudlTagLine`: only a malformed `link:` value
(not purely alphanumeric) errors, returning the zeroed tuple at once. -/
def crudlTagLoop (acc : CrudlTagResult) : List String → CrudlTagResult
  | [] => acc
  | t :: rest =>
    let acc := if t = "req" then {acc with req := true} else acc
    let acc := if t = "email" then {acc with email := true} else acc
    let acc := crudlValKeys acc t ["lenmin", "lenmax", "valmin", "valmax", "regexp"]
    if goStartsWith t "link:" then
      let lStr := goDropLen t "link:".length
      if goIsAlnum lStr then crudlTagLoop {acc with link := lStr} rest
      else crudlTagError "link has invalid value"
    else crudlTagLoop acc rest

/-- crudl `parseCrudlTagLine`. -/
def parseCrudlTagLine (s : String) : CrudlTagResult :=
  crudlTagLoop {} (goSplitSpace s)

/-- The crudl `Helper` (the fields the claims need; validation tables are
keyed by field index in this variant).  `insertFieldCnt` and
`updateFieldCnt` are the Go loop counters, exposed to talk about how many
positional placeholders the cached INSERT/UPDATE carry. -/
structure CrudlHelper where
  queryDropTable : String := ""
  queryCreateTable : String := ""
  queryInsert : String := ""
  queryUpdateById : String := ""
  querySelectById : String := ""
  queryDeleteById : String := ""
  dbTbl : String := ""
  dbColPre : String := ""
  url : String := ""
  reqFields : List Nat := []
  lenFields : List (Nat × Int × Int) := []
  emailFields : List Nat := []
  linkFields : List (Nat × Nat) := []
  valFields : List (Nat × Int × Int) := []
  regexpFields : List (Nat × String) := []
  insertFieldCnt : Int := 0
  updateFieldCnt : Int := 0
deriving DecidableEq

/-- Loop state of the crudl `SetFromTags`. -/
structure CrudlState where
  h : CrudlHelper
  queryCreateTableCols : String := ""
  querySelectCols : String := ""
  queryUpdateCols : String := ""
  queryInsertCols : String := ""
  queryInsertVals : String := ""
deriving DecidableEq

/-- crudl string append with `", "` (the crudl CREATE/SELECT columns use a
comma-space separator, unlike the rest). -/
def addWithCommaSpace (s v : String) : String :=
  if s ≠ "" then s ++ ", " ++ v else s ++ v

/-- Per-field body of the crudl `SetFromTags` loop (indices are those of
the full field list, as `reflect` numbers them). -/
def crudlProcessField (fields : List FieldInfo) (st : CrudlState) (j : Nat) (f : FieldInfo) :
    Except String CrudlState :=
  if ¬ isScalarKind f.kind then .ok st
  else
    let r := parseCrudlTagLine (f.tagGet "crudl")
    match r.err with
    | some e => .error ("error with parseCrudlTagLine: " ++ e)
    | none =>
      let h := st.h
      let h := if r.req then {h with reqFields := h.reqFields ++ [j]} else h
      let h := if r.email then {h with emailFields := h.emailFields ++ [j]} else h
      let h := if r.lenmin > -1 ∨ r.lenmax > -1 then {h with lenFields := h.lenFields ++ [(j, r.lenmin, r.lenmax)]} else h
      let h := if r.valmin > -1 ∨ r.valmax > -1 then {h with valFields := h.valFields ++ [(j, r.valmin, r.valmax)]} else h
      match (if r.link ≠ "" then
              match fields.findIdx? (fun g => g.name = r.link) with
              | none => none
              | some idx => some (some idx)
             else some none : Option (Option Nat)) with
      | none => .error ("invalid link " ++ r.link)
      | some linkIdx =>
        let h := match linkIdx with
          | some idx => {h with linkFields := h.linkFields ++ [(j, idx)]}
          | none => h
        let h := if r.re ≠ "" then {h with regexpFields := h.regexpFields ++ [(j, r.re)]} else h
        let dbCol :=
          if f.name = "ID" then h.dbColPre ++ "_id"
          else if f.name = "Flags" then h.dbColPre ++ "_flags"
          else getUnderscoredName f.name
        let dbColParams :=
          if f.name = "ID" then "SERIAL PRIMARY KEY"
          else if f.name = "Flags" then "BIGINT"
          else if kindTypeString f.kind = "string" then "VARCHAR(255)"
          else if kindTypeString f.kind = "int64" then "BIGINT"
          else if kindTypeString f.kind = "int" then "BIGINT"
          else "VARCHAR(255)"
        let st := {st with h := h}
        let st := {st with queryCreateTableCols := addWithCommaSpace st.queryCreateTableCols (dbCol ++ " " ++ dbColParams)}
        let st := {st with querySelectCols := addWithCommaSpace st.querySelectCols dbCol}
        if f.name ≠ "ID" then
          let updateFieldCnt := st.h.updateFieldCnt + 1
          let insertFieldCnt := st.h.insertFieldCnt + 1
          let st := {st with h := {st.h with updateFieldCnt := updateFieldCnt, insertFieldCnt := insertFieldCnt}}
          let st := {st with queryUpdateCols := addWithComma st.queryUpdateCols (dbCol ++ "=$" ++ goItoa updateFieldCnt)}
          let st := {st with queryInsertCols := addWithComma st.queryInsertCols dbCol}
          .ok {st with queryInsertVals := addWithComma st.queryInsertVals ("$" ++ goItoa insertFieldCnt)}
        else .ok st

/-- The indexed field loop of the crudl `SetFromTags`. -/
def crudlFieldsLoop (fields : List FieldInfo) (st : CrudlState) (j : Nat) :
    List FieldInfo → Except String CrudlState
  | [] => .ok st
  | f :: rest =>
    match crudlProcessField fields st j f with
    | .error e => .error e
    | .ok st' => crudlFieldsLoop fields st' (j + 1) rest

/-- crudl `SetFromTags` / `NewHelper(m)` (this Helper revision takes no
table-name prefix). -/
def crudlNewHelper (obj : GoObj) : Except String CrudlHelper :=
  let st := goTypeOf obj
  let usName := getUnderscoredName st.name
  let usPluName := getPluralName usName
  let h : CrudlHelper := {dbTbl := usPluName, dbColPre := usName, url := usPluName}
  match crudlFieldsLoop st.fields ⟨h, "", "", "", "", ""⟩ 0 st.fields with
  | .error e => .error e
  | .ok s =>
    .ok {s.h with
      queryDropTable := "DROP TABLE IF EXISTS " ++ s.h.dbTbl,
      queryCreateTable := "CREATE TABLE " ++ s.h.dbTbl ++ " (" ++ s.queryCreateTableCols ++ ")",
      queryDeleteById := "DELETE FROM " ++ s.h.dbTbl ++ " WHERE " ++ s.h.dbColPre ++ "_id = $1",
      querySelectById := "SELECT " ++ s.querySelectCols ++ " FROM " ++ s.h.dbTbl ++ " WHERE " ++ s.h.dbColPre ++ "_id = $1",
      queryInsert := "INSERT INTO " ++ s.h.dbTbl ++ "(" ++ s.queryInsertCols ++ ") VALUES (" ++ s.queryInsertVals ++ ") RETURNING " ++ s.h.dbColPre ++ "_id",
      queryUpdateById := "UPDATE " ++ s.h.dbTbl ++ " SET " ++ s.queryUpdateCols ++ " WHERE " ++ s.h.dbColPre ++ "_id = $" ++ goItoa (s.h.updateFieldCnt + 1)}

/-- modelcontroller.go `GetModelFieldInterfaces` (crudl variant): note the
kind filter admits only Int64 and String — platform-int fields are
skipped, unlike in every cached SQL statement of the same variant. -/
def crudlGetModelFieldInterfaces (obj : GoObj) : List GoValue :=
  (obj.fields.drop 1).filterMap (fun fv =>
    match fv.2 with
    | .int64 _ => some fv.2
    | .str _ => some fv.2
    | _ => none)

/-- modelcontroller.go `ResetFields` (crudl variant): pointers, int64 and
string fields are zeroed; platform-int fields are left untouched. -/
def crudlResetValue : GoValue → GoValue
  | .ptr _ => .ptr none
  | .int64 _ => .int64 0
  | .str _ => .str ""
  | .int n => .int n

/-- crudl `ResetFields` over a record instance. -/
def crudlResetFields (obj : GoObj) : GoObj :=
  ⟨obj.typeName, obj.fields.map (fun fv => (fv.1, crudlResetValue fv.2))⟩

/-- modelcontroller.go `DeleteFromDB`: helper construction errors fail the
operation, a zero identity is a no-op, otherwise the row is deleted and
the fields are (partially) zeroed by the crudl `ResetFields`. -/
def crudlDeleteFromDB (obj : GoObj) (db : DB) : OpResult :=
  match crudlNewHelper obj with
  | .error e => ⟨some ⟨"GetHelper", GoErr.other e⟩, obj, db, []⟩
  | .ok h =>
    if GetModelIDValue obj = 0 then ⟨none, obj, db, []⟩
    else ⟨none, crudlResetFields obj, dbExecDelete db (GetModelIDValue obj), [h.queryDeleteById]⟩

/-! ### Concrete record instances used by the claim theorems -/

/-- A record type with two non-identity fields whose field-name order and
derived-column-name order disagree: "UserID" < "UserIcon" as field names,
but "user_icon" < "user_id" as columns (the I-D rule maps "ID" to "id"
without an underscore). -/
def entryObj : GoObj :=
  ⟨"Entry", [(⟨"ID", .kInt64, []⟩, .int64 0),
             (⟨"UserID", .kInt64, []⟩, .int64 0),
             (⟨"UserIcon", .kStr, []⟩, .str "")]⟩

/-- A filter map over `entryObj` in one insertion order... -/
def entryFilters : List (String × GoValue) := [("UserID", .int64 5), ("UserIcon", .str "x")]

/-- ...and the same map in the other insertion order. -/
def entryFiltersPerm : List (String × GoValue) := [("UserIcon", .str "x"), ("UserID", .int64 5)]

/-- The `TestStruct1` of the crudl test-suite, with the values its
`TestSaveToDB` inserts. -/
def ts1 : GoObj :=
  ⟨"TestStruct1",
   [(⟨"ID", .kInt64, []⟩, .int64 0),
    (⟨"Flags", .kInt64, []⟩, .int64 4),
    (⟨"Email", .kStr, [("crudl", "req lenmin:10 lenmax:255 email")]⟩, .str "test@example.com"),
    (⟨"Age", .kInt, [("crudl", "req valmin:18 valmax:120")]⟩, .int 37),
    (⟨"Price", .kInt, [("crudl", "req valmin:5 valmax:3580")]⟩, .int 1000),
    (⟨"CurrencyRate", .kInt, [("crudl", "req valmin:10 valmax:50004")]⟩, .int 14432),
    (⟨"PostCode", .kStr, [("crudl", "req lenmin:6")]⟩, .str "66-112")]⟩

/-- A stored `TestStruct1`-shaped instance with identity 5 and a platform-int
field `Age` holding 40. -/
def delObj : GoObj :=
  ⟨"TestStruct1", [(⟨"ID", .kInt64, []⟩, .int64 5),
                   (⟨"Age", .kInt, [("crudl", "req valmin:18 valmax:120")]⟩, .int 40)]⟩

/-- The database containing exactly the row of `delObj`. -/
def delDB : DB := ⟨[(5, [GoValue.int 40])], 6⟩

/-- C1: the claim says `GetQuerySelect` orders the WHERE placeholders by
column name and `GetFiltersInterfaces` produces the bound values in the
same order.  Each function is indeed deterministic (a permuted map changes
nothing), but `GetQuerySelect` sorts by *derived column name* while
`GetFiltersInterfaces` sorts by *struct field name*; on `entryObj` these
orders differ, so the UserID value 5 is bound to the `user_icon=$1`
placeholder.  This contradicts the claimed lockstep binding. -/
theorem c1_filter_binding_misaligned :
    GetQuerySelect (NewHelper entryObj "") [] 0 0 entryFilters [] [] =
      "SELECT entry_id,user_id,user_icon FROM entries WHERE user_icon=$1 AND user_id=$2"
    ∧ GetQuerySelect (NewHelper entryObj "") [] 0 0 entryFiltersPerm [] [] =
      GetQuerySelect (NewHelper entryObj "") [] 0 0 entryFilters [] []
    ∧ GetFiltersInterfaces entryFiltersPerm = GetFiltersInterfaces entryFilters
    ∧ GetFiltersInterfaces entryFilters = [.int64 5, .str "x"]
    ∧ GetFiltersInterfaces entryFilters ≠ [.str "x", .int64 5] := by
  refine ⟨by decide, by decide, by decide, by decide, by decide⟩

/-- C2: in the crudl variant the cached INSERT carries six columns and six
positional placeholders for `TestStruct1` (platform-int columns `age`,
`price`, `currency_rate` included), yet `GetModelFieldInterfaces` skips
platform-int fields and returns only three slots, so positional binding
cannot stay aligned; the crud-variant accessor does return all six. -/
theorem c2_crudl_interfaces_drop_int_fields :
    (crudlNewHelper ts1).map (fun h => h.queryInsert) =
      .ok "INSERT INTO test_struct1s(test_struct1_flags,email,age,price,currency_rate,post_code) VALUES ($1,$2,$3,$4,$5,$6) RETURNING test_struct1_id"
    ∧ (crudlNewHelper ts1).map (fun h => h.insertFieldCnt) = .ok 6
    ∧ crudlGetModelFieldInterfaces ts1 = [.int64 4, .str "test@example.com", .str "66-112"]
    ∧ (crudlGetModelFieldInterfaces ts1).length ≠ 6
    ∧ GetModelFieldInterfaces ts1 =
        [.int64 4, .str "test@example.com", .int 37, .int 1000, .int 14432, .str "66-112"] := by
  refine ⟨by rfl, by rfl, by decide, by decide, by decide⟩

/-- C5 counterexample: `DeleteFromDB` of the crudl variant succeeds on
`delObj` (identity 5), yet afterwards the platform-int field `Age` still
reads 40, not its zero value — the crudl `ResetFields` never clears
platform-int fields, refuting the claim as stated. -/
theorem c5_crudl_delete_leaves_int_field :
    (crudlDeleteFromDB delObj delDB).err = none
    ∧ objFieldByName (crudlDeleteFromDB delObj delDB).obj "Age" = GoValue.int 40
    ∧ ¬ objZeroed (crudlDeleteFromDB delObj delDB).obj := by
  refine ⟨by decide, by decide, by decide⟩

/-- C8 counterexample: `parseCrudlTagLine` accepts the malformed token
`lenmin:abc` without any error — the integer-validity check is commented
out in the source and the failed `strconv.Atoi` silently yields bound 0 —
refuting the claim that a non-integer numeric token always fails with a
TagParseError. -/
theorem c8_crudl_accepts_bad_numeric :
    (parseCrudlTagLine "lenmin:abc").err = none
    ∧ (parseCrudlTagLine "lenmin:abc").lenmin = 0 := by
  refine ⟨by decide, by decide⟩

/-! ### Structural lemmas: the SQL-building phase leaves the validation
tables (and err) alone -/

theorem processDBQField_preserves (st : DBQState) (f : FieldInfo) :
    (processDBQField st f).h.err = st.h.err ∧
    (processDBQField st f).h.dbTbl = st.h.dbTbl ∧
    (processDBQField st f).h.fieldsRequired = st.h.fieldsRequired ∧
    (processDBQField st f).h.fieldsValueNotNil = st.h.fieldsValueNotNil ∧
    (processDBQField st f).h.fieldsEmail = st.h.fieldsEmail := by
  cases hk : f.kind <;> by_cases hn : f.name = "ID" <;>
    simp [processDBQField, isScalarKind, hk, hn]

theorem dbqFold_preserves (fs : List FieldInfo) (st : DBQState) :
    (fs.foldl processDBQField st).h.err = st.h.err ∧
    (fs.foldl processDBQField st).h.dbTbl = st.h.dbTbl ∧
    (fs.foldl processDBQField st).h.fieldsRequired = st.h.fieldsRequired ∧
    (fs.foldl processDBQField st).h.fieldsValueNotNil = st.h.fieldsValueNotNil ∧
    (fs.foldl processDBQField st).h.fieldsEmail = st.h.fieldsEmail := by
  induction fs generalizing st with
  | nil => exact ⟨rfl, rfl, rfl, rfl, rfl⟩
  | cons f rest ih =>
    have h1 := processDBQField_preserves st f
    have h2 := ih (processDBQField st f)
    simp only [List.foldl_cons]
    exact ⟨h2.1.trans h1.1, h2.2.1.trans h1.2.1, h2.2.2.1.trans h1.2.2.1,
      h2.2.2.2.1.trans h1.2.2.2.1, h2.2.2.2.2.trans h1.2.2.2.2⟩

theorem reflectDBQ_preserves (h : Helper) (st : StructType) (pre : String) :
    (reflectStructForDBQueries h st pre).err = h.err ∧
    (reflectStructForDBQueries h st pre).dbTbl = pre ++ getPluralName (getUnderscoredName st.name) ∧
    (reflectStructForDBQueries h st pre).fieldsRequired = h.fieldsRequired ∧
    (reflectStructForDBQueries h st pre).fieldsValueNotNil = h.fieldsValueNotNil ∧
    (reflectStructForDBQueries h st pre).fieldsEmail = h.fieldsEmail := by
  have hf := dbqFold_preserves st.fields (DBQState.mk {h with dbTbl := pre ++ getPluralName (getUnderscoredName st.name), dbColPre := getUnderscoredName st.name, url := getPluralName (getUnderscoredName st.name)} "" "" "" "" "" 1)
  exact ⟨hf.1, hf.2.1, hf.2.2.1, hf.2.2.2.1, hf.2.2.2.2⟩

/-! ### Structural lemmas: the tag loop never assigns `h.err`, and the
validation loop therefore processes every field -/

theorem applyNumericOpt_err (h : Helper) (n k : String) (i : Int) :
    (applyNumericOpt h n k i).err = h.err := by
  unfold applyNumericOpt
  repeat' split
  all_goals rfl

theorem optWithoutVal_err (h : Helper) (t n : String) :
    (setFieldFromTagOptWithoutVal h t n).err = h.err := by
  unfold setFieldFromTagOptWithoutVal
  repeat' split
  all_goals rfl

theorem valLoop_err (n t : String) (ks : List String) (h : Helper) :
    (setFieldFromTagValLoop n t h ks).1.err = h.err := by
  induction ks generalizing h with
  | nil => rfl
  | cons k rest ih =>
    unfold setFieldFromTagValLoop
    split
    · dsimp only
      split
      · exact ih _
      · split
        · rfl
        · exact (ih _).trans (applyNumericOpt_err h n k _)
    · exact ih h

theorem tagLoop_err (n : String) (ts : List String) (h : Helper) :
    (setFieldFromTagLoop n h ts).1.err = h.err := by
  induction ts generalizing h with
  | nil => rfl
  | cons t rest ih =>
    unfold setFieldFromTagLoop
    dsimp only
    split
    · next h2 e heq =>
      have hv := valLoop_err n t valOptKeys (setFieldFromTagOptWithoutVal h t n)
      rw [show setFieldFromTagValLoop n t (setFieldFromTagOptWithoutVal h t n) valOptKeys = (h2, some e) from heq] at hv
      exact hv.trans (optWithoutVal_err h t n)
    · next h2 heq =>
      have hv := valLoop_err n t valOptKeys (setFieldFromTagOptWithoutVal h t n)
      rw [show setFieldFromTagValLoop n t (setFieldFromTagOptWithoutVal h t n) valOptKeys = (h2, none) from heq] at hv
      exact (ih h2).trans (hv.trans (optWithoutVal_err h t n))

theorem setFieldFromTag_err (h : Helper) (tag n : String) :
    (setFieldFromTag h tag n).err = h.err :=
  tagLoop_err n (goSplitSpace tag) h

theorem setFieldFromName_err (h : Helper) (n : String) :
    (setFieldFromName h n).err = h.err := by
  unfold setFieldFromName
  split <;> rfl

theorem processValidationField_err (h : Helper) (f : FieldInfo) :
    (processValidationField h f).err = h.err := by
  unfold processValidationField
  dsimp only
  repeat' split
  all_goals exact (setFieldFromTag_err _ _ _).trans (setFieldFromName_err h f.name)

theorem reflectValidationLoop_err (fs : List FieldInfo) (h : Helper) :
    (reflectValidationLoop h fs).err = h.err := by
  induction fs generalizing h with
  | nil => rfl
  | cons f rest ih =>
    unfold reflectValidationLoop
    split
    · dsimp only
      split
      · exact processValidationField_err h f
      · exact (ih _).trans (processValidationField_err h f)
    · exact ih h

/-- The crud-variant Helper never records a construction error: mdl.go's
`setFieldFromTag` keeps the HelperError in a local variable and never
assigns `h.err` (the `if h.err != nil` check downstream is dead code). -/
theorem NewHelper_err_none (obj : GoObj) (pre : String) :
    (NewHelper obj pre).err = none := by
  unfold NewHelper
  exact (reflectDBQ_preserves _ _ _).1.trans (reflectValidationLoop_err _ _)

/-- C9: the derived table name is the caller-supplied prefix plus the
pluralized underscore-converted type name; the acronym exception renders
`UserID` as `user_id` (never `user_i_d`), and pluralization follows the
y→ies / s→es / +s rules — in particular Category→categories,
Cross→crosses, ProductCategory→product_categories, UserCart→user_carts. -/
theorem c9_table_name_derivation :
    (∀ (obj : GoObj) (pre : String),
        (NewHelper obj pre).dbTbl = pre ++ getPluralName (getUnderscoredName obj.typeName))
    ∧ getUnderscoredName "UserID" = "user_id"
    ∧ getUnderscoredName "UserID" ≠ "user_i_d"
    ∧ getPluralName (getUnderscoredName "Category") = "categories"
    ∧ getPluralName (getUnderscoredName "Cross") = "crosses"
    ∧ getPluralName (getUnderscoredName "ProductCategory") = "product_categories"
    ∧ getPluralName (getUnderscoredName "UserCart") = "user_carts" := by
  refine ⟨fun obj pre => ?_, by decide, by decide, by decide, by decide, by decide, by decide⟩
  exact (reflectDBQ_preserves _ _ _).2.1

/-! ### What each tag-processing step can and cannot touch -/

/-- The error decision of `setFieldFromTagValLoop` depends only on the
token, not on the helper state. -/
def tagValErr? (opt : String) : List String → Option HelperError
  | [] => none
  | k :: ks =>
    if goStartsWith opt (k ++ ":") then
      if k = "regexp" then tagValErr? opt ks
      else
        match goAtoi (goDropLen opt (k ++ ":").length) with
        | none => some ⟨"ParseTag", k⟩
        | some _ => tagValErr? opt ks
    else tagValErr? opt ks

theorem valLoop_snd (n opt : String) (ks : List String) (h : Helper) :
    (setFieldFromTagValLoop n opt h ks).2 = tagValErr? opt ks := by
  induction ks generalizing h with
  | nil => rfl
  | cons k rest ih =>
    unfold setFieldFromTagValLoop tagValErr?
    split
    · dsimp only
      split
      · exact ih _
      · split
        · rfl
        · exact ih _
    · exact ih h

theorem applyNumericOpt_required (h : Helper) (n k : String) (i : Int) :
    (applyNumericOpt h n k i).fieldsRequired = h.fieldsRequired := by
  unfold applyNumericOpt
  repeat' split
  all_goals rfl

theorem applyNumericOpt_email (h : Helper) (n k : String) (i : Int) :
    (applyNumericOpt h n k i).fieldsEmail = h.fieldsEmail := by
  unfold applyNumericOpt
  repeat' split
  all_goals rfl

theorem valLoop_required (n t : String) (ks : List String) (h : Helper) :
    (setFieldFromTagValLoop n t h ks).1.fieldsRequired = h.fieldsRequired := by
  induction ks generalizing h with
  | nil => rfl
  | cons k rest ih =>
    unfold setFieldFromTagValLoop
    split
    · dsimp only
      split
      · exact ih _
      · split
        · rfl
        · exact (ih _).trans (applyNumericOpt_required h n k _)
    · exact ih h

theorem valLoop_email (n t : String) (ks : List String) (h : Helper) :
    (setFieldFromTagValLoop n t h ks).1.fieldsEmail = h.fieldsEmail := by
  induction ks generalizing h with
  | nil => rfl
  | cons k rest ih =>
    unfold setFieldFromTagValLoop
    split
    · dsimp only
      split
      · exact ih _
      · split
        · rfl
        · exact (ih _).trans (applyNumericOpt_email h n k _)
    · exact ih h

theorem applyNumericOpt_notnil_ne (h : Helper) (n k m : String) (i : Int) (hm : m ≠ n) :
    mapLookup (applyNumericOpt h n k i).fieldsValueNotNil m = mapLookup h.fieldsValueNotNil m := by
  unfold applyNumericOpt
  repeat' split
  all_goals first
    | rfl
    | exact mapLookup_set_ne _ _ _ _ (fun e => hm e.symm)

theorem valLoop_notnil_ne (n t : String) (ks : List String) (h : Helper) (m : String) (hm : m ≠ n) :
    mapLookup (setFieldFromTagValLoop n t h ks).1.fieldsValueNotNil m =
      mapLookup h.fieldsValueNotNil m := by
  induction ks generalizing h with
  | nil => rfl
  | cons k rest ih =>
    unfold setFieldFromTagValLoop
    split
    · dsimp only
      split
      · exact ih _
      · split
        · rfl
        · exact (ih _).trans (applyNumericOpt_notnil_ne h n k m _ hm)
    · exact ih h

theorem applyNumericOpt_notnil_fst (h : Helper) (n k : String) (i : Int)
    (hf : (mapGetD h.fieldsValueNotNil n (false, false)).1 = true) :
    (mapGetD (applyNumericOpt h n k i).fieldsValueNotNil n (false, false)).1 = true := by
  unfold applyNumericOpt
  repeat' split
  all_goals try exact hf
  all_goals simp [mapGetD, mapLookup_set_self]
  all_goals exact hf

theorem valLoop_notnil_fst (n t : String) (ks : List String) (h : Helper)
    (hf : (mapGetD h.fieldsValueNotNil n (false, false)).1 = true) :
    (mapGetD (setFieldFromTagValLoop n t h ks).1.fieldsValueNotNil n (false, false)).1 = true := by
  induction ks generalizing h with
  | nil => exact hf
  | cons k rest ih =>
    unfold setFieldFromTagValLoop
    split
    · dsimp only
      split
      · exact ih _ hf
      · split
        · exact hf
        · exact ih _ (applyNumericOpt_notnil_fst h n k _ hf)
    · exact ih h hf

theorem valLoop_notnil_untouched (n t : String) (ks : List String) (h : Helper)
    (hmin : goStartsWith t "valmin:" = false) (hmax : goStartsWith t "valmax:" = false) :
    (setFieldFromTagValLoop n t h ks).1.fieldsValueNotNil = h.fieldsValueNotNil := by
  induction ks generalizing h with
  | nil => rfl
  | cons k rest ih =>
    unfold setFieldFromTagValLoop
    split
    · next hpre =>
      dsimp only
      split
      · exact ih _
      · split
        · rfl
        · refine (ih _).trans ?_
          have hk1 : k ≠ "valmin" := by
            intro e
            subst e
            rw [show (("valmin" : String) ++ ":") = "valmin:" from rfl] at hpre
            simp [hmin] at hpre
          have hk2 : k ≠ "valmax" := by
            intro e
            subst e
            rw [show (("valmax" : String) ++ ":") = "valmax:" from rfl] at hpre
            simp [hmax] at hpre
          unfold applyNumericOpt
          repeat' split
          all_goals rfl
    · exact ih h

theorem optWithoutVal_required_true (h : Helper) (t n : String)
    (hr : mapLookup h.fieldsRequired n = some true) :
    mapLookup (setFieldFromTagOptWithoutVal h t n).fieldsRequired n = some true := by
  unfold setFieldFromTagOptWithoutVal
  repeat' split
  all_goals first
    | exact hr
    | exact mapLookup_set_self _ _ _

theorem optWithoutVal_email_true (h : Helper) (t n : String)
    (hr : mapLookup h.fieldsEmail n = some true) :
    mapLookup (setFieldFromTagOptWithoutVal h t n).fieldsEmail n = some true := by
  unfold setFieldFromTagOptWithoutVal
  repeat' split
  all_goals first
    | exact hr
    | exact mapLookup_set_self _ _ _

theorem optWithoutVal_notnil (h : Helper) (t n : String) :
    (setFieldFromTagOptWithoutVal h t n).fieldsValueNotNil = h.fieldsValueNotNil := by
  unfold setFieldFromTagOptWithoutVal
  repeat' split
  all_goals rfl

theorem optWithoutVal_required_ne (h : Helper) (t n m : String) (hm : m ≠ n) :
    mapLookup (setFieldFromTagOptWithoutVal h t n).fieldsRequired m =
      mapLookup h.fieldsRequired m := by
  unfold setFieldFromTagOptWithoutVal
  repeat' split
  all_goals first
    | rfl
    | exact mapLookup_set_ne _ _ _ _ (fun e => hm e.symm)

theorem optWithoutVal_email_ne (h : Helper) (t n m : String) (hm : m ≠ n) :
    mapLookup (setFieldFromTagOptWithoutVal h t n).fieldsEmail m =
      mapLookup h.fieldsEmail m := by
  unfold setFieldFromTagOptWithoutVal
  repeat' split
  all_goals first
    | rfl
    | exact mapLookup_set_ne _ _ _ _ (fun e => hm e.symm)

/-! ### Tag-loop level: what a whole `crud` tag establishes and preserves -/

/-- The tokens of a field's `crud` tag. -/
def crudTokens (f : FieldInfo) : List String := goSplitSpace (f.tagGet "crud")

/-- A tag is clean when none of its tokens carries an unparsable numeric
value (such a token silently stops tag processing for the field). -/
def cleanTag (f : FieldInfo) : Prop :=
  ∀ t ∈ crudTokens f, tagValErr? t valOptKeys = none

theorem loop_required_true (n : String) (ts : List String) (h : Helper)
    (hr : mapLookup h.fieldsRequired n = some true) :
    mapLookup (setFieldFromTagLoop n h ts).1.fieldsRequired n = some true := by
  induction ts generalizing h with
  | nil => exact hr
  | cons t rest ih =>
    unfold setFieldFromTagLoop setFieldFromTagOptWithVal
    dsimp only
    have hr1 := optWithoutVal_required_true h t n hr
    split
    · next h2 e heq =>
      have h2eq : h2 = (setFieldFromTagValLoop n t (setFieldFromTagOptWithoutVal h t n) valOptKeys).1 := by rw [heq]
      rw [h2eq, valLoop_required]
      exact hr1
    · next h2 heq =>
      have h2eq : h2 = (setFieldFromTagValLoop n t (setFieldFromTagOptWithoutVal h t n) valOptKeys).1 := by rw [heq]
      refine ih h2 ?_
      rw [h2eq, valLoop_required]
      exact hr1

theorem loop_email_true (n : String) (ts : List String) (h : Helper)
    (hr : mapLookup h.fieldsEmail n = some true) :
    mapLookup (setFieldFromTagLoop n h ts).1.fieldsEmail n = some true := by
  induction ts generalizing h with
  | nil => exact hr
  | cons t rest ih =>
    unfold setFieldFromTagLoop setFieldFromTagOptWithVal
    dsimp only
    have hr1 := optWithoutVal_email_true h t n hr
    split
    · next h2 e heq =>
      have h2eq : h2 = (setFieldFromTagValLoop n t (setFieldFromTagOptWithoutVal h t n) valOptKeys).1 := by rw [heq]
      rw [h2eq, valLoop_email]
      exact hr1
    · next h2 heq =>
      have h2eq : h2 = (setFieldFromTagValLoop n t (setFieldFromTagOptWithoutVal h t n) valOptKeys).1 := by rw [heq]
      refine ih h2 ?_
      rw [h2eq, valLoop_email]
      exact hr1

theorem loop_notnil_fst (n : String) (ts : List String) (h : Helper)
    (hr : (mapGetD h.fieldsValueNotNil n (false, false)).1 = true) :
    (mapGetD (setFieldFromTagLoop n h ts).1.fieldsValueNotNil n (false, false)).1 = true := by
  induction ts generalizing h with
  | nil => exact hr
  | cons t rest ih =>
    unfold setFieldFromTagLoop setFieldFromTagOptWithVal
    dsimp only
    have hr1 : (mapGetD (setFieldFromTagOptWithoutVal h t n).fieldsValueNotNil n (false, false)).1 = true := by
      rw [mapGetD, optWithoutVal_notnil]
      exact hr
    split
    · next h2 e heq =>
      have h2eq : h2 = (setFieldFromTagValLoop n t (setFieldFromTagOptWithoutVal h t n) valOptKeys).1 := by rw [heq]
      rw [h2eq]
      exact valLoop_notnil_fst n t valOptKeys _ hr1
    · next h2 heq =>
      have h2eq : h2 = (setFieldFromTagValLoop n t (setFieldFromTagOptWithoutVal h t n) valOptKeys).1 := by rw [heq]
      refine ih h2 ?_
      rw [h2eq]
      exact valLoop_notnil_fst n t valOptKeys _ hr1

theorem loop_notnil_untouched (n : String) (ts : List String) (h : Helper)
    (hvm : ∀ t ∈ ts, goStartsWith t "valmin:" = false ∧ goStartsWith t "valmax:" = false) :
    (setFieldFromTagLoop n h ts).1.fieldsValueNotNil = h.fieldsValueNotNil := by
  induction ts generalizing h with
  | nil => rfl
  | cons t rest ih =>
    unfold setFieldFromTagLoop setFieldFromTagOptWithVal
    dsimp only
    have hvt := hvm t (List.mem_cons_self t rest)
    have hbase : (setFieldFromTagValLoop n t (setFieldFromTagOptWithoutVal h t n) valOptKeys).1.fieldsValueNotNil = h.fieldsValueNotNil := by
      rw [valLoop_notnil_untouched n t valOptKeys _ hvt.1 hvt.2, optWithoutVal_notnil]
    split
    · next h2 e heq =>
      have h2eq : h2 = (setFieldFromTagValLoop n t (setFieldFromTagOptWithoutVal h t n) valOptKeys).1 := by rw [heq]
      rw [h2eq]
      exact hbase
    · next h2 heq =>
      have h2eq : h2 = (setFieldFromTagValLoop n t (setFieldFromTagOptWithoutVal h t n) valOptKeys).1 := by rw [heq]
      refine ((ih h2) fun t' ht' => hvm t' (List.mem_cons_of_mem t ht')).trans ?_
      rw [h2eq]
      exact hbase

theorem loop_required_establish (n : String) (ts : List String) (h : Helper)
    (hclean : ∀ t ∈ ts, tagValErr? t valOptKeys = none) (hreq : "req" ∈ ts) :
    mapLookup (setFieldFromTagLoop n h ts).1.fieldsRequired n = some true := by
  induction ts generalizing h with
  | nil => cases hreq
  | cons t rest ih =>
    unfold setFieldFromTagLoop setFieldFromTagOptWithVal
    dsimp only
    split
    · next h2 e heq =>
      have hsnd := valLoop_snd n t valOptKeys (setFieldFromTagOptWithoutVal h t n)
      rw [heq] at hsnd
      rw [hclean t (List.mem_cons_self t rest)] at hsnd
      cases hsnd
    · next h2 heq =>
      have h2eq : h2 = (setFieldFromTagValLoop n t (setFieldFromTagOptWithoutVal h t n) valOptKeys).1 := by rw [heq]
      rcases List.mem_cons.mp hreq with hteq | hrest
      · subst hteq
        refine loop_required_true n rest h2 ?_
        rw [h2eq, valLoop_required]
        have : (setFieldFromTagOptWithoutVal h "req" n).fieldsRequired = mapSet h.fieldsRequired n true := rfl
        rw [this]
        exact mapLookup_set_self _ _ _
      · exact ih h2 (fun t' ht' => hclean t' (List.mem_cons_of_mem t ht')) hrest

/-- Evaluating the with-value key loop on the literal token "valmin:0". -/
theorem valLoop_valmin0_eval (n : String) (h : Helper) :
    setFieldFromTagValLoop n "valmin:0" h valOptKeys = (applyNumericOpt h n "valmin" 0, none) := rfl

theorem loop_valmin0_establish (n : String) (ts : List String) (h : Helper)
    (hclean : ∀ t ∈ ts, tagValErr? t valOptKeys = none) (hvm : "valmin:0" ∈ ts) :
    (mapGetD (setFieldFromTagLoop n h ts).1.fieldsValueNotNil n (false, false)).1 = true := by
  induction ts generalizing h with
  | nil => cases hvm
  | cons t rest ih =>
    unfold setFieldFromTagLoop setFieldFromTagOptWithVal
    dsimp only
    split
    · next h2 e heq =>
      have hsnd := valLoop_snd n t valOptKeys (setFieldFromTagOptWithoutVal h t n)
      rw [heq] at hsnd
      rw [hclean t (List.mem_cons_self t rest)] at hsnd
      cases hsnd
    · next h2 heq =>
      have h2eq : h2 = (setFieldFromTagValLoop n t (setFieldFromTagOptWithoutVal h t n) valOptKeys).1 := by rw [heq]
      rcases List.mem_cons.mp hvm with hteq | hrest
      · subst hteq
        refine loop_notnil_fst n rest h2 ?_
        rw [h2eq, valLoop_valmin0_eval]
        simp [applyNumericOpt, mapGetD, mapLookup_set_self]
      · exact ih h2 (fun t' ht' => hclean t' (List.mem_cons_of_mem t ht')) hrest

theorem loop_required_ne (n : String) (ts : List String) (h : Helper) (m : String) (hm : m ≠ n) :
    mapLookup (setFieldFromTagLoop n h ts).1.fieldsRequired m = mapLookup h.fieldsRequired m := by
  induction ts generalizing h with
  | nil => rfl
  | cons t rest ih =>
    unfold setFieldFromTagLoop setFieldFromTagOptWithVal
    dsimp only
    have hbase : mapLookup (setFieldFromTagValLoop n t (setFieldFromTagOptWithoutVal h t n) valOptKeys).1.fieldsRequired m = mapLookup h.fieldsRequired m := by
      rw [valLoop_required]
      exact optWithoutVal_required_ne h t n m hm
    split
    · next h2 e heq =>
      have h2eq : h2 = (setFieldFromTagValLoop n t (setFieldFromTagOptWithoutVal h t n) valOptKeys).1 := by rw [heq]
      rw [h2eq]
      exact hbase
    · next h2 heq =>
      have h2eq : h2 = (setFieldFromTagValLoop n t (setFieldFromTagOptWithoutVal h t n) valOptKeys).1 := by rw [heq]
      refine (ih h2).trans ?_
      rw [h2eq]
      exact hbase

theorem loop_notnil_ne (n : String) (ts : List String) (h : Helper) (m : String) (hm : m ≠ n) :
    mapLookup (setFieldFromTagLoop n h ts).1.fieldsValueNotNil m = mapLookup h.fieldsValueNotNil m := by
  induction ts generalizing h with
  | nil => rfl
  | cons t rest ih =>
    unfold setFieldFromTagLoop setFieldFromTagOptWithVal
    dsimp only
    have hbase : mapLookup (setFieldFromTagValLoop n t (setFieldFromTagOptWithoutVal h t n) valOptKeys).1.fieldsValueNotNil m = mapLookup h.fieldsValueNotNil m := by
      rw [valLoop_notnil_ne n t valOptKeys _ m hm, optWithoutVal_notnil]
    split
    · next h2 e heq =>
      have h2eq : h2 = (setFieldFromTagValLoop n t (setFieldFromTagOptWithoutVal h t n) valOptKeys).1 := by rw [heq]
      rw [h2eq]
      exact hbase
    · next h2 heq =>
      have h2eq : h2 = (setFieldFromTagValLoop n t (setFieldFromTagOptWithoutVal h t n) valOptKeys).1 := by rw [heq]
      refine (ih h2).trans ?_
      rw [h2eq]
      exact hbase

theorem loop_email_ne (n : String) (ts : List String) (h : Helper) (m : String) (hm : m ≠ n) :
    mapLookup (setFieldFromTagLoop n h ts).1.fieldsEmail m = mapLookup h.fieldsEmail m := by
  induction ts generalizing h with
  | nil => rfl
  | cons t rest ih =>
    unfold setFieldFromTagLoop setFieldFromTagOptWithVal
    dsimp only
    have hbase : mapLookup (setFieldFromTagValLoop n t (setFieldFromTagOptWithoutVal h t n) valOptKeys).1.fieldsEmail m = mapLookup h.fieldsEmail m := by
      rw [valLoop_email]
      exact optWithoutVal_email_ne h t n m hm
    split
    · next h2 e heq =>
      have h2eq : h2 = (setFieldFromTagValLoop n t (setFieldFromTagOptWithoutVal h t n) valOptKeys).1 := by rw [heq]
      rw [h2eq]
      exact hbase
    · next h2 heq =>
      have h2eq : h2 = (setFieldFromTagValLoop n t (setFieldFromTagOptWithoutVal h t n) valOptKeys).1 := by rw [heq]
      refine (ih h2).trans ?_
      rw [h2eq]
      exact hbase

/-! ### Per-field level: what processing one field establishes and preserves -/

theorem setFieldFromName_required (h : Helper) (n : String) :
    (setFieldFromName h n).fieldsRequired = h.fieldsRequired := by
  unfold setFieldFromName
  split <;> rfl

theorem setFieldFromName_notnil (h : Helper) (n : String) :
    (setFieldFromName h n).fieldsValueNotNil = h.fieldsValueNotNil := by
  unfold setFieldFromName
  split <;> rfl

theorem setFieldFromName_email_establish (h : Helper) (n : String)
    (hsuf : goEndsWith n "Email" = true) :
    mapLookup (setFieldFromName h n).fieldsEmail n = some true := by
  unfold setFieldFromName
  simp only [hsuf, if_true]
  exact mapLookup_set_self _ _ _

theorem setFieldFromName_email_true (h : Helper) (n m : String)
    (hr : mapLookup h.fieldsEmail m = some true) :
    mapLookup (setFieldFromName h n).fieldsEmail m = some true := by
  unfold setFieldFromName
  split
  · by_cases hmn : n = m
    · subst hmn
      exact mapLookup_set_self _ _ _
    · rw [mapLookup_set_ne _ _ _ _ hmn]
      exact hr
  · exact hr

theorem setFieldFromName_email_ne (h : Helper) (n m : String) (hm : m ≠ n) :
    mapLookup (setFieldFromName h n).fieldsEmail m = mapLookup h.fieldsEmail m := by
  unfold setFieldFromName
  split
  · exact mapLookup_set_ne _ _ _ _ (fun e => hm e.symm)
  · rfl

theorem loop_notnil_exact_lookup (n : String) (ts : List String) (X : Helper)
    (hvm : ∀ t ∈ ts, goStartsWith t "valmin:" = false ∧ goStartsWith t "valmax:" = false)
    (hstart : mapLookup X.fieldsValueNotNil n = some (false, false)) :
    mapLookup (setFieldFromTagLoop n X ts).1.fieldsValueNotNil n = some (false, false) := by
  rw [loop_notnil_untouched n ts X hvm]
  exact hstart

theorem pvf_required_establish (h : Helper) (f : FieldInfo)
    (hclean : cleanTag f) (hreq : "req" ∈ crudTokens f) :
    mapLookup (processValidationField h f).fieldsRequired f.name = some true := by
  unfold processValidationField
  dsimp only
  repeat' split
  all_goals exact loop_required_establish f.name (crudTokens f) _ hclean hreq

theorem pvf_notnil_fst_establish (h : Helper) (f : FieldInfo)
    (hclean : cleanTag f) (hvm : "valmin:0" ∈ crudTokens f) :
    (mapGetD (processValidationField h f).fieldsValueNotNil f.name (false, false)).1 = true := by
  unfold processValidationField
  dsimp only
  repeat' split
  all_goals exact loop_valmin0_establish f.name (crudTokens f) _ hclean hvm

theorem pvf_notnil_exact (h : Helper) (f : FieldInfo)
    (hnovm : ∀ t ∈ crudTokens f, goStartsWith t "valmin:" = false ∧ goStartsWith t "valmax:" = false) :
    mapLookup (processValidationField h f).fieldsValueNotNil f.name = some (false, false) := by
  unfold processValidationField
  dsimp only
  repeat' split
  all_goals exact loop_notnil_exact_lookup f.name (crudTokens f) _ hnovm (mapLookup_set_self _ _ _)

theorem pvf_email_establish (h : Helper) (f : FieldInfo)
    (hsuf : goEndsWith f.name "Email" = true) :
    mapLookup (processValidationField h f).fieldsEmail f.name = some true := by
  unfold processValidationField
  dsimp only
  repeat' split
  all_goals refine loop_email_true f.name (crudTokens f) _ ?_
  all_goals exact setFieldFromName_email_establish h f.name hsuf

theorem pvf_email_true (h : Helper) (f : FieldInfo) (m : String)
    (hr : mapLookup h.fieldsEmail m = some true) :
    mapLookup (processValidationField h f).fieldsEmail m = some true := by
  unfold processValidationField
  dsimp only
  by_cases hmn : m = f.name
  · subst hmn
    repeat' split
    all_goals refine loop_email_true f.name (crudTokens f) _ ?_
    all_goals exact setFieldFromName_email_true h f.name f.name hr
  · repeat' split
    all_goals refine (loop_email_ne f.name (crudTokens f) _ m hmn).trans ?_
    all_goals exact (setFieldFromName_email_ne h f.name m hmn).trans hr

theorem pvf_required_true (h : Helper) (f : FieldInfo) (m : String)
    (hr : mapLookup h.fieldsRequired m = some true) :
    mapLookup (processValidationField h f).fieldsRequired m = some true := by
  unfold processValidationField
  dsimp only
  by_cases hmn : m = f.name
  · subst hmn
    repeat' split
    all_goals refine loop_required_true f.name (crudTokens f) _ ?_
    all_goals rw [setFieldFromName_required]
    all_goals exact hr
  · repeat' split
    all_goals refine (loop_required_ne f.name (crudTokens f) _ m hmn).trans ?_
    all_goals exact (congrArg (fun l => mapLookup l m) (setFieldFromName_required h f.name)).trans hr

theorem pvf_required_ne (h : Helper) (f : FieldInfo) (m : String) (hm : m ≠ f.name) :
    mapLookup (processValidationField h f).fieldsRequired m = mapLookup h.fieldsRequired m := by
  unfold processValidationField
  dsimp only
  repeat' split
  all_goals refine (loop_required_ne f.name (crudTokens f) _ m hm).trans ?_
  all_goals exact congrArg (fun l => mapLookup l m) (setFieldFromName_required h f.name)

theorem pvf_notnil_ne (h : Helper) (f : FieldInfo) (m : String) (hm : m ≠ f.name) :
    mapLookup (processValidationField h f).fieldsValueNotNil m = mapLookup h.fieldsValueNotNil m := by
  unfold processValidationField
  dsimp only
  repeat' split
  all_goals refine (loop_notnil_ne f.name (crudTokens f) _ m hm).trans ?_
  all_goals dsimp only
  all_goals exact Eq.trans (mapLookup_set_ne _ _ _ _ (fun e => hm e.symm)) (congrArg (fun l => mapLookup l m) (setFieldFromName_notnil h f.name))

/-! ### Field-loop level: the whole validation reflection -/

theorem rvl_required_true (fs : List FieldInfo) (h : Helper) (m : String)
    (hr : mapLookup h.fieldsRequired m = some true) :
    mapLookup (reflectValidationLoop h fs).fieldsRequired m = some true := by
  induction fs generalizing h with
  | nil => exact hr
  | cons f rest ih =>
    unfold reflectValidationLoop
    split
    · dsimp only
      split
      · exact pvf_required_true h f m hr
      · exact ih _ (pvf_required_true h f m hr)
    · exact ih h hr

theorem rvl_email_true (fs : List FieldInfo) (h : Helper) (m : String)
    (hr : mapLookup h.fieldsEmail m = some true) :
    mapLookup (reflectValidationLoop h fs).fieldsEmail m = some true := by
  induction fs generalizing h with
  | nil => exact hr
  | cons f rest ih =>
    unfold reflectValidationLoop
    split
    · dsimp only
      split
      · exact pvf_email_true h f m hr
      · exact ih _ (pvf_email_true h f m hr)
    · exact ih h hr

theorem rvl_notnil_ne (fs : List FieldInfo) (h : Helper) (n : String)
    (hne : ∀ g ∈ fs, g.name ≠ n) :
    mapLookup (reflectValidationLoop h fs).fieldsValueNotNil n = mapLookup h.fieldsValueNotNil n := by
  induction fs generalizing h with
  | nil => rfl
  | cons f rest ih =>
    have hf : n ≠ f.name := (hne f (List.mem_cons_self f rest)).symm
    have hrest : ∀ g ∈ rest, g.name ≠ n := fun g hg => hne g (List.mem_cons_of_mem f hg)
    unfold reflectValidationLoop
    split
    · dsimp only
      split
      · exact pvf_notnil_ne h f n hf
      · exact (ih _ hrest).trans (pvf_notnil_ne h f n hf)
    · exact ih h hrest

/-- A field tagged `req` and `valmin:0` (with a clean tag) ends up in the
required table with the zero-is-valid escape set. -/
theorem rvl_c6_escape (fs : List FieldInfo) (h : Helper) (f : FieldInfo)
    (herr : h.err = none) (hmem : f ∈ fs)
    (hnodup : (fs.map FieldInfo.name).Nodup)
    (hscal : isScalarKind f.kind = true)
    (hclean : cleanTag f) (hreq : "req" ∈ crudTokens f) (hvm : "valmin:0" ∈ crudTokens f) :
    mapLookup (reflectValidationLoop h fs).fieldsRequired f.name = some true ∧
    (mapGetD (reflectValidationLoop h fs).fieldsValueNotNil f.name (false, false)).1 = true := by
  induction fs generalizing h with
  | nil => cases hmem
  | cons g rest ih =>
    have hnodup' : (rest.map FieldInfo.name).Nodup := by
      simp only [List.map_cons, List.nodup_cons] at hnodup
      exact hnodup.2
    rcases List.mem_cons.mp hmem with heq | hmemr
    · subst heq
      have hne : ∀ g' ∈ rest, g'.name ≠ f.name := by
        intro g' hg' e
        simp only [List.map_cons, List.nodup_cons] at hnodup
        exact hnodup.1 (e ▸ List.mem_map_of_mem FieldInfo.name hg')
      unfold reflectValidationLoop
      split
      · dsimp only
        split
        · next hE =>
          rw [processValidationField_err, herr] at hE
          cases hE
        · constructor
          · exact rvl_required_true rest _ f.name (pvf_required_establish h f hclean hreq)
          · have hpres := rvl_notnil_ne rest (processValidationField h f) f.name hne
            rw [mapGetD, hpres]
            exact pvf_notnil_fst_establish h f hclean hvm
      · next hs => exact absurd hscal hs
    · unfold reflectValidationLoop
      split
      · dsimp only
        split
        · next hE =>
          rw [processValidationField_err, herr] at hE
          cases hE
        · exact ih _ ((processValidationField_err h g).trans herr) hmemr hnodup'
      · exact ih h herr hmemr hnodup'

/-- A field tagged `req` with a clean tag and no `valmin:`/`valmax:` token
ends up in the required table with no zero escape. -/
theorem rvl_c6_noescape (fs : List FieldInfo) (h : Helper) (f : FieldInfo)
    (herr : h.err = none) (hmem : f ∈ fs)
    (hnodup : (fs.map FieldInfo.name).Nodup)
    (hscal : isScalarKind f.kind = true)
    (hreq2 : "req" ∈ crudTokens f) (hclean : cleanTag f)
    (hnovm : ∀ t ∈ crudTokens f, goStartsWith t "valmin:" = false ∧ goStartsWith t "valmax:" = false) :
    mapLookup (reflectValidationLoop h fs).fieldsRequired f.name = some true ∧
    mapLookup (reflectValidationLoop h fs).fieldsValueNotNil f.name = some (false, false) := by
  induction fs generalizing h with
  | nil => cases hmem
  | cons g rest ih =>
    have hnodup' : (rest.map FieldInfo.name).Nodup := by
      simp only [List.map_cons, List.nodup_cons] at hnodup
      exact hnodup.2
    rcases List.mem_cons.mp hmem with heq | hmemr
    · subst heq
      have hne : ∀ g' ∈ rest, g'.name ≠ f.name := by
        intro g' hg' e
        simp only [List.map_cons, List.nodup_cons] at hnodup
        exact hnodup.1 (e ▸ List.mem_map_of_mem FieldInfo.name hg')
      unfold reflectValidationLoop
      split
      · dsimp only
        split
        · next hE =>
          rw [processValidationField_err, herr] at hE
          cases hE
        · constructor
          · exact rvl_required_true rest _ f.name (pvf_required_establish h f hclean hreq2)
          · exact (rvl_notnil_ne rest (processValidationField h f) f.name hne).trans
              (pvf_notnil_exact h f hnovm)
      · next hs => exact absurd hscal hs
    · unfold reflectValidationLoop
      split
      · dsimp only
        split
        · next hE =>
          rw [processValidationField_err, herr] at hE
          cases hE
        · exact ih _ ((processValidationField_err h g).trans herr) hmemr hnodup'
      · exact ih h herr hmemr hnodup'

/-- A scalar field whose name ends in "Email" lands in the email table no
matter what its tag says. -/
theorem rvl_email_establish (fs : List FieldInfo) (h : Helper) (f : FieldInfo)
    (herr : h.err = none) (hmem : f ∈ fs)
    (hscal : isScalarKind f.kind = true)
    (hsuf : goEndsWith f.name "Email" = true) :
    mapLookup (reflectValidationLoop h fs).fieldsEmail f.name = some true := by
  induction fs generalizing h with
  | nil => cases hmem
  | cons g rest ih =>
    rcases List.mem_cons.mp hmem with heq | hmemr
    · subst heq
      unfold reflectValidationLoop
      split
      · dsimp only
        split
        · next hE =>
          rw [processValidationField_err, herr] at hE
          cases hE
        · exact rvl_email_true rest _ f.name (pvf_email_establish h f hsuf)
      · next hs => exact absurd hscal hs
    · unfold reflectValidationLoop
      split
      · dsimp only
        split
        · next hE =>
          rw [processValidationField_err, herr] at hE
          cases hE
        · exact ih _ ((processValidationField_err h g).trans herr) hmemr
      · exact ih h herr hmemr

/-! ### Membership in the validation passes -/

theorem contains_iff_mem_str (l : List String) (a : String) : l.contains a = true ↔ a ∈ l :=
  List.contains_iff_exists_mem_beq.trans (by simp)

theorem requiredPass_not_mem (h : Helper) (obj : GoObj) (n : String)
    (hchk : validateFieldRequired (objFieldByName obj n)
      ((mapGetD h.fieldsValueNotNil n (false, false)).1 || (mapGetD h.fieldsValueNotNil n (false, false)).2) = true) :
    n ∉ requiredPass h obj := by
  intro hmem
  unfold requiredPass at hmem
  rw [List.mem_filterMap] at hmem
  obtain ⟨kv, _, hemit⟩ := hmem
  dsimp only at hemit
  split at hemit
  · cases hemit
  · next hc =>
    have hk : kv.1 = n := by
      injection hemit
    rw [hk] at hc
    exact hc hchk

theorem requiredPass_mem (h : Helper) (obj : GoObj) (n : String)
    (hlk : mapLookup h.fieldsRequired n = some true)
    (hchk : validateFieldRequired (objFieldByName obj n)
      ((mapGetD h.fieldsValueNotNil n (false, false)).1 || (mapGetD h.fieldsValueNotNil n (false, false)).2) = false) :
    n ∈ requiredPass h obj := by
  unfold requiredPass
  rw [List.mem_filterMap]
  refine ⟨(n, true), mapLookup_mem hlk, ?_⟩
  dsimp only
  rw [if_neg]
  intro hc
  rw [hchk] at hc
  cases hc

theorem emailPass_mem (h : Helper) (obj : GoObj) (emailM : String → Bool) (n : String)
    (hlk : mapLookup h.fieldsEmail n = some true)
    (s : String) (hv : objFieldByName obj n = GoValue.str s) (hm : emailM s = false) :
    n ∈ emailPass h obj none emailM := by
  unfold emailPass
  rw [List.mem_flatMap]
  refine ⟨(n, true), mapLookup_mem hlk, ?_⟩
  unfold filterAwareEntry
  dsimp only
  rw [hv]
  have : validateFieldEmail (GoValue.str s) emailM = false := by
    unfold validateFieldEmail
    simpa [goTypeName] using hm
  rw [this]
  simp

/-- In a record instance with no duplicated field names, `FieldByName` of a
field present in the instance returns that field's value. -/
theorem find_field_of_mem (l : List (FieldInfo × GoValue)) (f : FieldInfo) (v : GoValue)
    (hmem : (f, v) ∈ l) (hnodup : (l.map (fun fv => fv.1.name)).Nodup) :
    ((l.find? (fun fv => fv.1.name = f.name)).map Prod.snd).getD (GoValue.ptr none) = v := by
  induction l with
  | nil => cases hmem
  | cons hd tl ih =>
    rw [List.map_cons, List.nodup_cons] at hnodup
    rcases List.mem_cons.mp hmem with heq | hmemtl
    · rw [← heq]
      simp [List.find?]
    · have hne : hd.1.name ≠ f.name := by
        intro e
        exact hnodup.1 (e ▸ List.mem_map_of_mem (fun fv => fv.1.name) hmemtl)
      rw [List.find?]
      simp only [hne, decide_eq_false, cond_false]
      exact ih hmemtl hnodup.2

theorem objFieldByName_of_mem (obj : GoObj) (f : FieldInfo) (v : GoValue)
    (hmem : (f, v) ∈ obj.fields)
    (hnodup : ((goTypeOf obj).fields.map FieldInfo.name).Nodup) :
    objFieldByName obj f.name = v := by
  have hnodup2 : (obj.fields.map (fun fv => fv.1.name)).Nodup := by
    have he : (goTypeOf obj).fields.map FieldInfo.name = obj.fields.map (fun fv => fv.1.name) := by
      simp [goTypeOf, List.map_map, Function.comp]
    rw [he] at hnodup
    exact hnodup
  exact find_field_of_mem obj.fields f v hmem hnodup2

/-! ### C6 and C10 -/

theorem NewHelper_required_lookup (obj : GoObj) (pre : String) (n : String) :
    mapLookup (NewHelper obj pre).fieldsRequired n =
      mapLookup (reflectValidationLoop {} (goTypeOf obj).fields).fieldsRequired n := by
  unfold NewHelper
  rw [(reflectDBQ_preserves _ _ _).2.2.1]
  rfl

theorem NewHelper_notnil_lookup (obj : GoObj) (pre : String) (n : String) :
    mapLookup (NewHelper obj pre).fieldsValueNotNil n =
      mapLookup (reflectValidationLoop {} (goTypeOf obj).fields).fieldsValueNotNil n := by
  unfold NewHelper
  rw [(reflectDBQ_preserves _ _ _).2.2.2.1]
  rfl

theorem NewHelper_email_lookup (obj : GoObj) (pre : String) (n : String) :
    mapLookup (NewHelper obj pre).fieldsEmail n =
      mapLookup (reflectValidationLoop {} (goTypeOf obj).fields).fieldsEmail n := by
  unfold NewHelper
  rw [(reflectDBQ_preserves _ _ _).2.2.2.2]
  rfl

/-- C6: in full-object mode, an integer field tagged both `req` and
`valmin:0` whose value is 0 is not reported by the required-fields pass
(the `fieldsValueNotNil` escape suppresses the zero check), while the same
field tagged `req` without any `valmin:`/`valmax:` token is reported, and
that report surfaces in `Validate`'s failed-field list.  The clean-tag
hypothesis says no token of the tag carries an unparsable number (such a
token would silently stop tag processing in this variant). -/
theorem c6_required_zero_escape :
    (∀ (pre : String) (obj : GoObj) (f : FieldInfo) (v : GoValue),
      (f, v) ∈ obj.fields →
      ((goTypeOf obj).fields.map FieldInfo.name).Nodup →
      isScalarKind f.kind = true →
      cleanTag f →
      "req" ∈ crudTokens f → "valmin:0" ∈ crudTokens f →
      (v = GoValue.int 0 ∨ v = GoValue.int64 0) →
      f.name ∉ requiredPass (NewHelper obj pre) obj)
    ∧
    (∀ (pre : String) (obj : GoObj) (f : FieldInfo) (v : GoValue),
      (f, v) ∈ obj.fields →
      ((goTypeOf obj).fields.map FieldInfo.name).Nodup →
      isScalarKind f.kind = true →
      cleanTag f →
      "req" ∈ crudTokens f →
      (∀ t ∈ crudTokens f, goStartsWith t "valmin:" = false ∧ goStartsWith t "valmax:" = false) →
      (v = GoValue.int 0 ∨ v = GoValue.int64 0) →
      f.name ∈ requiredPass (NewHelper obj pre) obj ∧
      ∀ (emailM : String → Bool) (reM : String → String → Bool),
        f.name ∈ (validate (NewHelper obj pre) obj none emailM reM).2) := by
  constructor
  · intro pre obj f v hmem hnodup hscal hclean hreq hvm hv
    have hmemf : f ∈ (goTypeOf obj).fields := by
      simpa [goTypeOf] using List.mem_map_of_mem Prod.fst hmem
    have hesc := rvl_c6_escape (goTypeOf obj).fields {} f rfl hmemf hnodup hscal hclean hreq hvm
    have hval := objFieldByName_of_mem obj f v hmem hnodup
    refine requiredPass_not_mem _ obj f.name ?_
    rw [hval]
    have hfst : (mapGetD (NewHelper obj pre).fieldsValueNotNil f.name (false, false)).1 = true := by
      rw [mapGetD, NewHelper_notnil_lookup]
      exact hesc.2
    rw [hfst, Bool.true_or]
    rcases hv with rfl | rfl <;> decide
  · intro pre obj f v hmem hnodup hscal hclean hreq hnovm hv
    have hmemf : f ∈ (goTypeOf obj).fields := by
      simpa [goTypeOf] using List.mem_map_of_mem Prod.fst hmem
    have hflag := rvl_c6_noescape (goTypeOf obj).fields {} f rfl hmemf hnodup hscal hreq hclean hnovm
    have hval := objFieldByName_of_mem obj f v hmem hnodup
    have hreqmem : f.name ∈ requiredPass (NewHelper obj pre) obj := by
      refine requiredPass_mem _ obj f.name ?_ ?_
      · rw [NewHelper_required_lookup]
        exact hflag.1
      · rw [hval]
        have hnn : mapGetD (NewHelper obj pre).fieldsValueNotNil f.name (false, false) = (false, false) := by
          rw [mapGetD, NewHelper_notnil_lookup, hflag.2]
          rfl
        rw [hnn]
        rcases hv with rfl | rfl <;> decide
    refine ⟨hreqmem, fun emailM reM => ?_⟩
    unfold validate
    dsimp only
    rw [List.mem_append, List.mem_append, List.mem_append, List.mem_append]
    exact Or.inl (Or.inl (Or.inl (Or.inl hreqmem)))

/-- C10 (implicit behavior): during crud Helper construction every scalar
field whose name ends in "Email" is registered in the email-format table
even when its `crud` tag carries no `email` token, and Validate therefore
applies the email-format check to such a field purely because of its
name. -/
theorem c10_email_by_field_name :
    ∀ (pre : String) (obj : GoObj) (f : FieldInfo),
      f ∈ (goTypeOf obj).fields →
      isScalarKind f.kind = true →
      goEndsWith f.name "Email" = true →
      mapLookup (NewHelper obj pre).fieldsEmail f.name = some true ∧
      (∀ (s : String) (emailM : String → Bool) (reM : String → String → Bool),
        objFieldByName obj f.name = GoValue.str s → emailM s = false →
        f.name ∈ (validate (NewHelper obj pre) obj none emailM reM).2) := by
  intro pre obj f hmem hscal hsuf
  have hlk : mapLookup (NewHelper obj pre).fieldsEmail f.name = some true := by
    rw [NewHelper_email_lookup]
    exact rvl_email_establish (goTypeOf obj).fields {} f rfl hmem hscal hsuf
  refine ⟨hlk, fun s emailM reM hv hm => ?_⟩
  have hpass := emailPass_mem (NewHelper obj pre) obj emailM f.name hlk s hv hm
  unfold validate
  dsimp only
  rw [List.mem_append, List.mem_append, List.mem_append, List.mem_append]
  exact Or.inl (Or.inr hpass)

/-! ### C7 -/

theorem filterAwareEntry_mem_keys (obj : GoObj) (fl : List (String × GoValue))
    (k : String) (chk : GoValue → Bool) (x : String)
    (hx : x ∈ filterAwareEntry obj (some fl) k chk) :
    x = k ∧ isKeyInMap k fl = true := by
  unfold filterAwareEntry at hx
  dsimp only at hx
  split at hx
  · cases hx
  · next hkey =>
    have hk : isKeyInMap k fl = true := by
      revert hkey
      cases isKeyInMap k fl <;> simp
    refine ⟨?_, hk⟩
    rw [List.mem_append] at hx
    rcases hx with hx | hx
    · revert hx
      split <;> intro hx <;> simp_all
    · revert hx
      split <;> intro hx <;> simp_all

theorem pass_mem_keys {α : Type} (l : List (String × α)) (obj : GoObj)
    (fl : List (String × GoValue)) (chkOf : String × α → GoValue → Bool) (x : String)
    (hx : x ∈ l.flatMap (fun kv => filterAwareEntry obj (some fl) kv.1 (chkOf kv))) :
    x ∈ fl.map Prod.fst := by
  rw [List.mem_flatMap] at hx
  obtain ⟨kv, _, hentry⟩ := hx
  obtain ⟨hxk, hkey⟩ := filterAwareEntry_mem_keys obj fl kv.1 (chkOf kv) x hentry
  subst hxk
  exact (contains_iff_mem_str _ _).mp hkey

/-- C7: with a filter map given, Validate skips the required-fields
category entirely (the result does not depend on `fieldsRequired` at all)
and the remaining categories are evaluated only for fields present in the
map, so a field absent from the map is never reported — even if tagged
`req`. -/
theorem c7_filter_mode_skips_required :
    (∀ (h : Helper) (obj : GoObj) (fl : List (String × GoValue))
        (emailM : String → Bool) (reM : String → String → Bool) (name : String),
      name ∉ fl.map Prod.fst →
      name ∉ (validate h obj (some fl) emailM reM).2)
    ∧
    (∀ (h : Helper) (X : List (String × Bool)) (obj : GoObj) (fl : List (String × GoValue))
        (emailM : String → Bool) (reM : String → String → Bool),
      validate {h with fieldsRequired := X} obj (some fl) emailM reM =
        validate h obj (some fl) emailM reM) := by
  constructor
  · intro h obj fl emailM reM name hnot hmem
    unfold validate at hmem
    dsimp only at hmem
    rw [List.mem_append, List.mem_append, List.mem_append, List.mem_append] at hmem
    rcases hmem with ((((hmem | hmem) | hmem) | hmem) | hmem)
    · cases hmem
    · exact hnot (pass_mem_keys h.fieldsLength obj fl (fun kv v => validateFieldLength v kv.2) name hmem)
    · exact hnot (pass_mem_keys h.fieldsValue obj fl
        (fun kv v => validateFieldValue v kv.2 (mapGetD h.fieldsValueNotNil kv.1 (false, false)).1 (mapGetD h.fieldsValueNotNil kv.1 (false, false)).2) name hmem)
    · exact hnot (pass_mem_keys h.fieldsEmail obj fl (fun _ v => validateFieldEmail v emailM) name hmem)
    · exact hnot (pass_mem_keys h.fieldsRegExp obj fl (fun kv v => validateFieldRegExp v kv.2 reM) name hmem)
  · intro h X obj fl emailM reM
    rfl

/-! ### C3, C4 and the amended C5 -/

theorem ne_of_head (a b : String) (h : a.data.head? ≠ b.data.head?) : a ≠ b :=
  fun e => h (congrArg (fun s => s.data.head?) e)

theorem NewHelper_update_ne_insert (obj : GoObj) (pre : String) :
    (NewHelper obj pre).queryUpdateById ≠ (NewHelper obj pre).queryInsert := by
  refine ne_of_head _ _ ?_
  rw [show (NewHelper obj pre).queryUpdateById.data.head? = some 'U' from rfl,
    show (NewHelper obj pre).queryInsert.data.head? = some 'I' from rfl]
  decide

theorem find_setIDInList (n : Int) : ∀ (l : List (FieldInfo × GoValue)),
    ((l.find? (fun fv => fv.1.name = "ID")).map Prod.snd).isSome = true →
    ((setIDInList l n).find? (fun fv => fv.1.name = "ID")).map Prod.snd =
      some (GoValue.int64 n)
  | [], h => by simp [List.find?] at h
  | fv :: rest, h => by
    by_cases hn : fv.1.name = "ID"
    · unfold setIDInList
      rw [if_pos hn]
      simp [List.find?, hn]
    · unfold setIDInList
      rw [if_neg hn]
      rw [List.find?] at h ⊢
      simp only [hn, decide_eq_false, cond_false] at h ⊢
      exact find_setIDInList n rest h

theorem objFieldByName_setModelID (obj : GoObj) (n : Int)
    (hid : (objFieldByName? obj "ID").isSome = true) :
    objFieldByName (setModelID obj n) "ID" = GoValue.int64 n := by
  unfold objFieldByName objFieldByName?
  unfold objFieldByName? at hid
  rw [show (setModelID obj n).fields = setIDInList obj.fields n from rfl]
  rw [find_setIDInList n obj.fields hid]
  rfl

/-- C3: after passing validation, `SaveToDB` with a positive identity
executes exactly the cached update-by-id statement (never the insert, whose
SQL string it differs from) and leaves the number of rows unchanged, while
with identity 0 it executes exactly the insert statement and stores the
database-generated identity in the instance's ID field. -/
theorem c3_update_vs_insert (pre : String) (obj : GoObj) (db : DB)
    (emailM : String → Bool) (reM : String → String → Bool)
    (hvalid : (validate (NewHelper obj pre) obj none emailM reM).1 = true) :
    (GetModelIDValue obj > 0 →
      SaveToDB pre obj db emailM reM =
        ⟨none, obj, dbExecUpdate db (GetModelIDValue obj) (GetModelFieldInterfaces obj),
          [(NewHelper obj pre).queryUpdateById]⟩
      ∧ (dbExecUpdate db (GetModelIDValue obj) (GetModelFieldInterfaces obj)).rows.length = db.rows.length
      ∧ (NewHelper obj pre).queryUpdateById ≠ (NewHelper obj pre).queryInsert)
    ∧ (GetModelIDValue obj = 0 →
      SaveToDB pre obj db emailM reM =
        ⟨none, setModelID obj db.nextId,
          ⟨db.rows ++ [(db.nextId, GetModelFieldInterfaces obj)], db.nextId + 1⟩,
          [(NewHelper obj pre).queryInsert]⟩
      ∧ ((objFieldByName? obj "ID").isSome = true →
          GetModelIDValue (SaveToDB pre obj db emailM reM).obj = db.nextId)) := by
  have herr := NewHelper_err_none obj pre
  constructor
  · intro hpos
    have hne : GetModelIDValue obj ≠ 0 := ne_of_gt hpos
    have hsave : SaveToDB pre obj db emailM reM =
        ⟨none, obj, dbExecUpdate db (GetModelIDValue obj) (GetModelFieldInterfaces obj),
          [(NewHelper obj pre).queryUpdateById]⟩ := by
      unfold SaveToDB
      simp only [herr, Option.isSome_none, Bool.false_eq_true, dite_false]
      simp [hvalid, hne]
    exact ⟨hsave, by simp [dbExecUpdate], NewHelper_update_ne_insert obj pre⟩
  · intro hzero
    have hsave : SaveToDB pre obj db emailM reM =
        ⟨none, setModelID obj db.nextId,
          ⟨db.rows ++ [(db.nextId, GetModelFieldInterfaces obj)], db.nextId + 1⟩,
          [(NewHelper obj pre).queryInsert]⟩ := by
      unfold SaveToDB
      simp only [herr, Option.isSome_none, Bool.false_eq_true, dite_false]
      simp [hvalid, hzero, dbExecInsert]
    refine ⟨hsave, fun hid => ?_⟩
    rw [hsave]
    unfold GetModelIDValue
    rw [objFieldByName_setModelID obj db.nextId hid]
    rfl

/-- C4: when validation fails, `SaveToDB` returns an ErrController for the
"Validate" operation wrapping an ErrValidation that carries the non-empty
failed-field list, executes no database statement, and leaves both the
instance and the database untouched. -/
theorem c4_validation_error (pre : String) (obj : GoObj) (db : DB)
    (emailM : String → Bool) (reM : String → String → Bool)
    (hfail : (validate (NewHelper obj pre) obj none emailM reM).1 = false) :
    SaveToDB pre obj db emailM reM =
      ⟨some ⟨"Validate", GoErr.errValidation (validate (NewHelper obj pre) obj none emailM reM).2⟩,
        obj, db, []⟩
    ∧ (validate (NewHelper obj pre) obj none emailM reM).2 ≠ [] := by
  have herr := NewHelper_err_none obj pre
  constructor
  · unfold SaveToDB
    simp only [herr, Option.isSome_none, Bool.false_eq_true, dite_false, hfail]
    simp
  · intro he
    have hb : (validate (NewHelper obj pre) obj none emailM reM).1 = true := by
      rw [show (validate (NewHelper obj pre) obj none emailM reM).1 =
        (validate (NewHelper obj pre) obj none emailM reM).2.isEmpty from rfl, he]
      rfl
    rw [hfail] at hb
    cases hb

theorem resetValue_zero (v : GoValue) : isZeroValue (resetValue v) = true := by
  cases v <;> simp [resetValue, isZeroValue]

theorem ResetFields_zeroed (obj : GoObj) : objZeroed (ResetFields obj) = true := by
  unfold objZeroed ResetFields
  rw [List.all_eq_true]
  intro fv hfv
  rw [List.mem_map] at hfv
  obtain ⟨fw, _, hfw⟩ := hfv
  rw [← hfw]
  exact resetValue_zero fw.2

theorem GetModelIDValue_of_zeroed (obj : GoObj) (hz : objZeroed obj = true) :
    GetModelIDValue obj = 0 := by
  unfold GetModelIDValue objFieldByName objFieldByName?
  cases hfind : obj.fields.find? (fun fv => fv.1.name = "ID") with
  | none => rfl
  | some fv =>
    have hmem := List.mem_of_find?_eq_some hfind
    unfold objZeroed at hz
    rw [List.all_eq_true] at hz
    have hzv := hz fv hmem
    cases hv : fv.2 <;> rw [hv] at hzv <;> simp [isZeroValue] at hzv <;>
      simp [hv, goValueInt, hzv]

theorem dbQueryById_dbExecDelete (db : DB) (id : Int) :
    dbQueryById (dbExecDelete db id) id = none := by
  unfold dbQueryById dbExecDelete
  rw [List.find?_eq_none]
  intro x hx
  have hne := List.of_mem_filter hx
  simp only [decide_eq_true_eq] at hne ⊢
  exact hne

theorem goTypeOf_ResetFields (obj : GoObj) : goTypeOf (ResetFields obj) = goTypeOf obj := by
  simp [goTypeOf, ResetFields, List.map_map, Function.comp]

theorem NewHelper_ResetFields (obj : GoObj) (pre : String) :
    NewHelper (ResetFields obj) pre = NewHelper obj pre := by
  unfold NewHelper
  rw [goTypeOf_ResetFields]

/-- C5, amended to the crud variant: after a successful `DeleteFromDB` on
an instance with positive identity, the instance's identity and all fields
read as their zero values, no row with the old identity remains, and a
subsequent `SetFromDB` with the old identity succeeds (no error) while
leaving the instance zeroed with identity 0 — "not found", not a failure.
(In the crudl variant `ResetFields` skips platform-int fields, so the
original claim fails there; see the counterexample.) -/
theorem c5_delete_zeroes_crud (pre : String) (obj : GoObj) (db : DB) (idStr : String)
    (hpos : GetModelIDValue obj > 0)
    (hidStr : goAtoi idStr = some (GetModelIDValue obj)) :
    (DeleteFromDB pre obj db).err = none
    ∧ objZeroed (DeleteFromDB pre obj db).obj = true
    ∧ dbQueryById (DeleteFromDB pre obj db).db (GetModelIDValue obj) = none
    ∧ (SetFromDB pre (DeleteFromDB pre obj db).obj idStr (DeleteFromDB pre obj db).db).err = none
    ∧ objZeroed (SetFromDB pre (DeleteFromDB pre obj db).obj idStr (DeleteFromDB pre obj db).db).obj = true
    ∧ GetModelIDValue (SetFromDB pre (DeleteFromDB pre obj db).obj idStr (DeleteFromDB pre obj db).db).obj = 0 := by
  have herr := NewHelper_err_none obj pre
  have hne : GetModelIDValue obj ≠ 0 := ne_of_gt hpos
  have hdel : DeleteFromDB pre obj db =
      ⟨none, ResetFields obj, dbExecDelete db (GetModelIDValue obj),
        [(NewHelper obj pre).queryDeleteById]⟩ := by
    unfold DeleteFromDB
    simp only [herr, Option.isSome_none, Bool.false_eq_true, dite_false, hne, if_false]
  rw [hdel]
  have hset : SetFromDB pre (ResetFields obj) idStr (dbExecDelete db (GetModelIDValue obj)) =
      ⟨none, ResetFields (ResetFields obj), dbExecDelete db (GetModelIDValue obj),
        [(NewHelper obj pre).querySelectById]⟩ := by
    unfold SetFromDB
    rw [hidStr]
    simp only [NewHelper_ResetFields, herr, Option.isSome_none, Bool.false_eq_true,
      dite_false, dbQueryById_dbExecDelete]
  refine ⟨rfl, ResetFields_zeroed obj, dbQueryById_dbExecDelete db (GetModelIDValue obj), ?_, ?_, ?_⟩
  · rw [hset]
  · rw [hset]
    exact ResetFields_zeroed (ResetFields obj)
  · rw [hset]
    exact GetModelIDValue_of_zeroed _ (ResetFields_zeroed (ResetFields obj))

/-! ### C8, amended: the error behaviour that survives in helper.go
`parseTag`, and the `link:` check of the crudl parser -/

theorem parseTagLoop_absorb (acc : ParseTagResult) (herr : acc.err.isSome = true) :
    ∀ ts, parseTagLoop acc ts = acc
  | [] => rfl
  | t :: rest => by
    unfold parseTagLoop
    rw [if_pos herr]

theorem parseTagValKeys_skip (acc : ParseTagResult) (t sl : String) (rest : List String)
    (hne : acc.err = none)
    (hpre : goStartsWith t (sl ++ ":") = false) :
    parseTagValKeys acc t (sl :: rest) = parseTagValKeys acc t rest := by
  rw [parseTagValKeys.eq_def]
  dsimp only
  rw [if_neg (by simp [hne]), if_neg (by simp [hpre])]

theorem parseTagValKeys_err (acc : ParseTagResult) (t sl : String) (rest : List String)
    (hne : acc.err = none)
    (hpre : goStartsWith t (sl ++ ":") = true)
    (hsl : sl ≠ "regexp")
    (hparse : goAtoi (goDropLen t (sl ++ ":").length) = none) :
    parseTagValKeys acc t (sl :: rest) = {acc with err := some ⟨"ParseTag", sl⟩} := by
  rw [parseTagValKeys.eq_def]
  dsimp only
  rw [if_neg (by simp [hne]), if_pos hpre, if_neg hsl, hparse]

theorem crudlValKeys_skip (acc : CrudlTagResult) (t sl : String) (rest : List String)
    (hpre : goStartsWith t (sl ++ ":") = false) :
    crudlValKeys acc t (sl :: rest) = crudlValKeys acc t rest := by
  rw [crudlValKeys.eq_def]
  dsimp only
  rw [if_neg (by simp [hpre])]

/-- C8, amended: in helper.go `parseTag` — the revision where the numeric
check survives — a `lenmin:`/`lenmax:`/`valmin:`/`valmax:` token whose
value is not a valid integer fails the parse with a HelperError naming the
offending key; a recorded error is absorbing, so parsing stops at the
first error and the order of the remaining tokens is irrelevant; in the
crudl parser only the `link:` check remains: a non-alphanumeric link value
errors at once with the zeroed tuple, and a helper-construction error
fails every later operation, such as `DeleteFromDB`.  (The crudl numeric
check is commented out in the source, so the claim's first half fails
there; see the counterexample.) -/
theorem c8_amended_tag_errors :
    (∀ (key t s : String) (post : List String),
      key ∈ (["lenmin", "lenmax", "valmin", "valmax"] : List String) →
      goSplitSpace s = t :: post →
      t ≠ "req" → t ≠ "email" →
      (∀ k, k ∈ parseTagKeys → goStartsWith t (k ++ ":") = true → k = key) →
      goStartsWith t (key ++ ":") = true →
      goAtoi (goDropLen t (key ++ ":").length) = none →
      (parseTag s).err = some ⟨"ParseTag", key⟩)
    ∧ (∀ (acc : ParseTagResult) (ts : List String),
        acc.err.isSome = true → parseTagLoop acc ts = acc)
    ∧ (∀ (t : String) (ts : List String) (cacc : CrudlTagResult),
        goStartsWith t "link:" = true →
        goIsAlnum (goDropLen t "link:".length) = false →
        crudlTagLoop cacc (t :: ts) = crudlTagError "link has invalid value")
    ∧ (∀ (obj : GoObj) (db : DB) (e : String),
        crudlNewHelper obj = .error e →
        crudlDeleteFromDB obj db = ⟨some ⟨"GetHelper", GoErr.other e⟩, obj, db, []⟩) := by
  refine ⟨?_, ?_, ?_, ?_⟩
  · intro key t s post hkey hs hreq hemail huniq hpre hparse
    unfold parseTag
    rw [hs]
    unfold parseTagLoop
    rw [if_neg (by decide)]
    dsimp only
    rw [if_neg hreq, if_neg hemail]
    rw [show parseTagKeys = "lenmin" :: ["lenmax", "valmin", "valmax", "regexp", "link:"] from rfl]
    fin_cases hkey
    · rw [parseTagValKeys_err {} t "lenmin" _ rfl hpre (by decide) hparse]
      rw [parseTagLoop_absorb ⟨false, false, -1, -1, -1, -1, "", 0, some ⟨"ParseTag", "lenmin"⟩⟩ rfl post]
    · have hsk1 : goStartsWith t ("lenmin" ++ ":") = false := by
        rcases Bool.eq_false_or_eq_true (goStartsWith t ("lenmin" ++ ":")) with h | h
        · exact absurd (huniq "lenmin" (by decide) h) (by decide)
        · exact h
      rw [parseTagValKeys_skip {} t "lenmin" _ rfl hsk1]
      rw [parseTagValKeys_err {} t "lenmax" _ rfl hpre (by decide) hparse]
      rw [parseTagLoop_absorb ⟨false, false, -1, -1, -1, -1, "", 0, some ⟨"ParseTag", "lenmax"⟩⟩ rfl post]
    · have hsk1 : goStartsWith t ("lenmin" ++ ":") = false := by
        rcases Bool.eq_false_or_eq_true (goStartsWith t ("lenmin" ++ ":")) with h | h
        · exact absurd (huniq "lenmin" (by decide) h) (by decide)
        · exact h
      have hsk2 : goStartsWith t ("lenmax" ++ ":") = false := by
        rcases Bool.eq_false_or_eq_true (goStartsWith t ("lenmax" ++ ":")) with h | h
        · exact absurd (huniq "lenmax" (by decide) h) (by decide)
        · exact h
      rw [parseTagValKeys_skip {} t "lenmin" _ rfl hsk1]
      rw [parseTagValKeys_skip {} t "lenmax" _ rfl hsk2]
      rw [parseTagValKeys_err {} t "valmin" _ rfl hpre (by decide) hparse]
      rw [parseTagLoop_absorb ⟨false, false, -1, -1, -1, -1, "", 0, some ⟨"ParseTag", "valmin"⟩⟩ rfl post]
    · have hsk1 : goStartsWith t ("lenmin" ++ ":") = false := by
        rcases Bool.eq_false_or_eq_true (goStartsWith t ("lenmin" ++ ":")) with h | h
        · exact absurd (huniq "lenmin" (by decide) h) (by decide)
        · exact h
      have hsk2 : goStartsWith t ("lenmax" ++ ":") = false := by
        rcases Bool.eq_false_or_eq_true (goStartsWith t ("lenmax" ++ ":")) with h | h
        · exact absurd (huniq "lenmax" (by decide) h) (by decide)
        · exact h
      have hsk3 : goStartsWith t ("valmin" ++ ":") = false := by
        rcases Bool.eq_false_or_eq_true (goStartsWith t ("valmin" ++ ":")) with h | h
        · exact absurd (huniq "valmin" (by decide) h) (by decide)
        · exact h
      rw [parseTagValKeys_skip {} t "lenmin" _ rfl hsk1]
      rw [parseTagValKeys_skip {} t "lenmax" _ rfl hsk2]
      rw [parseTagValKeys_skip {} t "valmin" _ rfl hsk3]
      rw [parseTagValKeys_err {} t "valmax" _ rfl hpre (by decide) hparse]
      rw [parseTagLoop_absorb ⟨false, false, -1, -1, -1, -1, "", 0, some ⟨"ParseTag", "valmax"⟩⟩ rfl post]
  · intro acc ts herr
    exact parseTagLoop_absorb acc herr ts
  · intro t ts cacc hlink halnum
    unfold crudlTagLoop
    dsimp only
    rw [if_pos hlink, if_neg (by simp [halnum])]
  · intro obj db e hobj
    unfold crudlDeleteFromDB
    rw [hobj]

/-! ### Concrete instances instantiating the general claim theorems -/

/-- An instance with identity 7 and an untagged (hence trivially valid)
string field: passes `Validate` and exercises the update path. -/
def c3wObj : GoObj := ⟨"Item", [(⟨"ID", .kInt64, []⟩, .int64 7), (⟨"Name", .kStr, []⟩, .str "")]⟩

/-- A one-row database holding the row of `c3wObj`. -/
def c3wDB : DB := ⟨[(7, [GoValue.str ""])], 8⟩

/-- An instance whose `req`-tagged string field is empty: fails `Validate`. -/
def c4wObj : GoObj := ⟨"Item2", [(⟨"ID", .kInt64, []⟩, .int64 0), (⟨"Name", .kStr, [("crud", "req")]⟩, .str "")]⟩

/-- An empty database. -/
def c4wDB : DB := ⟨[], 1⟩

/-- A stored instance with identity 7, to be deleted. -/
def c5wObj : GoObj := ⟨"Item3", [(⟨"ID", .kInt64, []⟩, .int64 7), (⟨"Name", .kStr, []⟩, .str "x")]⟩

/-- The database holding exactly the row of `c5wObj`. -/
def c5wDB : DB := ⟨[(7, [GoValue.str "x"])], 8⟩

/-- An integer field tagged both `req` and `valmin:0`, holding 0. -/
def c6wObjA : GoObj := ⟨"Thing", [(⟨"ID", .kInt64, []⟩, .int64 1), (⟨"Count", .kInt, [("crud", "req valmin:0")]⟩, .int 0)]⟩

/-- The same shape tagged only `req`, holding 0. -/
def c6wObjB : GoObj := ⟨"Thing2", [(⟨"ID", .kInt64, []⟩, .int64 1), (⟨"Count", .kInt, [("crud", "req")]⟩, .int 0)]⟩

/-- A three-field record for the filter-mode witness. -/
def c7wObj : GoObj := ⟨"Entry2", [(⟨"ID", .kInt64, []⟩, .int64 0), (⟨"UserID", .kInt64, []⟩, .int64 0), (⟨"UserIcon", .kStr, []⟩, .str "")]⟩

/-- A partial filter map leaving `UserIcon` out. -/
def c7wFilters : List (String × GoValue) := [("UserID", .int64 3)]

/-- A record whose crudl tag carries a non-alphanumeric `link:` value, so
crudl helper construction fails. -/
def c8wObj : GoObj := ⟨"Bad", [(⟨"ID", .kInt64, []⟩, .int64 0), (⟨"Name", .kStr, [("crudl", "link:x-y")]⟩, .str "")]⟩

/-- An empty database for the crudl error witness. -/
def c8wDB : DB := ⟨[], 1⟩

/-- A record with an untagged string field named `ContactEmail`. -/
def c10wObj : GoObj := ⟨"Person", [(⟨"ID", .kInt64, []⟩, .int64 1), (⟨"ContactEmail", .kStr, []⟩, .str "zz")]⟩

/-- Witness for C3 at `c3wObj`: it passes validation, its identity 7 is
positive, and `SaveToDB` is exactly the update result. -/
theorem c3_update_vs_insert_witness :
    (validate (NewHelper c3wObj "") c3wObj none (fun _ => true) (fun _ _ => true)).1 = true
    ∧ SaveToDB "" c3wObj c3wDB (fun _ => true) (fun _ _ => true) =
        ⟨none, c3wObj, dbExecUpdate c3wDB (GetModelIDValue c3wObj) (GetModelFieldInterfaces c3wObj),
          [(NewHelper c3wObj "").queryUpdateById]⟩ :=
  ⟨by decide, ((c3_update_vs_insert "" c3wObj c3wDB (fun _ => true) (fun _ _ => true)
      (by decide)).1 (by decide)).1⟩

/-- Witness for C4 at `c4wObj`: validation fails and `SaveToDB` returns the
wrapped validation error with a non-empty failed-field list, touching
nothing. -/
theorem c4_validation_error_witness :
    (validate (NewHelper c4wObj "") c4wObj none (fun _ => true) (fun _ _ => true)).1 = false
    ∧ SaveToDB "" c4wObj c4wDB (fun _ => true) (fun _ _ => true) =
        ⟨some ⟨"Validate", GoErr.errValidation
            (validate (NewHelper c4wObj "") c4wObj none (fun _ => true) (fun _ _ => true)).2⟩,
          c4wObj, c4wDB, []⟩
    ∧ (validate (NewHelper c4wObj "") c4wObj none (fun _ => true) (fun _ _ => true)).2 ≠ [] := by
  have h := c4_validation_error "" c4wObj c4wDB (fun _ => true) (fun _ _ => true) (by decide)
  exact ⟨by decide, h.1, h.2⟩

/-- Witness for the amended C5 at `c5wObj` (identity 7): delete succeeds,
zeroes everything, and the follow-up select by "7" is a no-error
not-found. -/
theorem c5_delete_zeroes_crud_witness :
    GetModelIDValue c5wObj > 0
    ∧ (DeleteFromDB "" c5wObj c5wDB).err = none
    ∧ objZeroed (DeleteFromDB "" c5wObj c5wDB).obj = true
    ∧ dbQueryById (DeleteFromDB "" c5wObj c5wDB).db (GetModelIDValue c5wObj) = none
    ∧ (SetFromDB "" (DeleteFromDB "" c5wObj c5wDB).obj "7" (DeleteFromDB "" c5wObj c5wDB).db).err = none
    ∧ objZeroed (SetFromDB "" (DeleteFromDB "" c5wObj c5wDB).obj "7" (DeleteFromDB "" c5wObj c5wDB).db).obj = true
    ∧ GetModelIDValue (SetFromDB "" (DeleteFromDB "" c5wObj c5wDB).obj "7" (DeleteFromDB "" c5wObj c5wDB).db).obj = 0 := by
  have h := c5_delete_zeroes_crud "" c5wObj c5wDB "7" (by decide) (by decide)
  exact ⟨by decide, h.1, h.2.1, h.2.2.1, h.2.2.2.1, h.2.2.2.2.1, h.2.2.2.2.2⟩

/-- Witness for C6 at `c6wObjA`/`c6wObjB`: the `valmin:0`-tagged zero is
not a required failure; the untagged zero is, and survives into the
`Validate` output. -/
theorem c6_required_zero_escape_witness :
    "Count" ∉ requiredPass (NewHelper c6wObjA "") c6wObjA
    ∧ "Count" ∈ requiredPass (NewHelper c6wObjB "") c6wObjB
    ∧ "Count" ∈ (validate (NewHelper c6wObjB "") c6wObjB none (fun _ => true) (fun _ _ => true)).2 := by
  have h1 := c6_required_zero_escape.1 "" c6wObjA ⟨"Count", .kInt, [("crud", "req valmin:0")]⟩ (.int 0)
    (by decide) (by decide) (by decide) (by unfold cleanTag; decide) (by decide) (by decide) (Or.inl rfl)
  have h2 := c6_required_zero_escape.2 "" c6wObjB ⟨"Count", .kInt, [("crud", "req")]⟩ (.int 0)
    (by decide) (by decide) (by decide) (by unfold cleanTag; decide) (by decide) (by decide) (Or.inl rfl)
  exact ⟨h1, h2.1, h2.2 (fun _ => true) (fun _ _ => true)⟩

/-- Witness for C7 at `c7wObj`: filter-mode validation over a map lacking
`UserIcon` never reports `UserIcon`, and the required table is entirely
inert in filter mode. -/
theorem c7_filter_mode_skips_required_witness :
    "UserIcon" ∉ (validate (NewHelper c7wObj "") c7wObj (some c7wFilters) (fun _ => true) (fun _ _ => true)).2
    ∧ validate {NewHelper c7wObj "" with fieldsRequired := [("UserIcon", true)]} c7wObj (some c7wFilters)
        (fun _ => true) (fun _ _ => true)
      = validate (NewHelper c7wObj "") c7wObj (some c7wFilters) (fun _ => true) (fun _ _ => true) :=
  ⟨c7_filter_mode_skips_required.1 (NewHelper c7wObj "") c7wObj c7wFilters
      (fun _ => true) (fun _ _ => true) "UserIcon" (by decide),
   c7_filter_mode_skips_required.2 (NewHelper c7wObj "") [("UserIcon", true)] c7wObj c7wFilters
      (fun _ => true) (fun _ _ => true)⟩

/-- Witness for the amended C8: `parseTag` rejects `valmin:abc` naming the
key, the error state absorbs later tokens, the crudl `link:` check rejects
`x-y`, and the resulting construction error fails `DeleteFromDB`. -/
theorem c8_amended_tag_errors_witness :
    (parseTag "valmin:abc req").err = some ⟨"ParseTag", "valmin"⟩
    ∧ parseTagLoop ⟨false, false, -1, -1, -1, -1, "", 0, some ⟨"ParseTag", "valmin"⟩⟩ ["lenmax:5"]
        = ⟨false, false, -1, -1, -1, -1, "", 0, some ⟨"ParseTag", "valmin"⟩⟩
    ∧ crudlTagLoop {} ["link:x-y"] = crudlTagError "link has invalid value"
    ∧ crudlDeleteFromDB c8wObj c8wDB =
        ⟨some ⟨"GetHelper", GoErr.other "error with parseCrudlTagLine: link has invalid value"⟩,
          c8wObj, c8wDB, []⟩ := by
  have h := c8_amended_tag_errors
  refine ⟨h.1 "valmin" "valmin:abc" "valmin:abc req" ["req"] (by decide) (by decide) (by decide)
      (by decide) (by decide) (by decide) (by decide),
    h.2.1 _ ["lenmax:5"] (by decide),
    h.2.2.1 "link:x-y" [] {} (by decide) (by decide),
    h.2.2.2 c8wObj c8wDB _ (by rfl)⟩

/-- Witness for C10 at `c10wObj`: the untagged `ContactEmail` string field
is in the email table purely by name, and a failing matcher pushes it into
the `Validate` output. -/
theorem c10_email_by_field_name_witness :
    mapLookup (NewHelper c10wObj "").fieldsEmail "ContactEmail" = some true
    ∧ "ContactEmail" ∈ (validate (NewHelper c10wObj "") c10wObj none (fun _ => false) (fun _ _ => true)).2 := by
  have h := c10_email_by_field_name "" c10wObj ⟨"ContactEmail", .kStr, []⟩ (by decide) (by decide) (by decide)
  exact ⟨h.1, h.2 "zz" (fun _ => false) (fun _ _ => true) (by decide) rfl⟩

end GoCrud
